import Mathlib

/-!
# Shallow embedding of `sc/src/SupplyChain.sol` (supply-chain-tracker)

Each Solidity function of the `SupplyChain` contract is translated into a
Lean function over an explicit contract-state record.  EVM conventions that
the translation keeps:

* `mapping(K => V)` is a total function with the zero value as default
  (`emptyToken`, `emptyTransfer`, `emptyUser`, `0`, `[]`).
* `require(cond, msg)` / `revert(msg)` become an `Except.error e` result with
  one error constructor per distinct revert reason; a revert rolls the whole
  call back, so an erroneous call simply produces no new state.
* Solidity 0.8 checked arithmetic: the subtraction in `acceptTransfer`
  reverts on underflow (`Err.underflow`) and the addition reverts when the
  result would not fit in a `uint256` (`Err.overflow`).
* integers are `Nat` with explicit bounds where the width matters:
  `totalSupply` is a `uint256` calldata argument, so values `≥ 2^256` are not
  representable — the model rejects them (`Err.uint256Range`) to keep the
  model's reachable states in bijection with the contract's; `amount` in
  `transfer` is checked against `2^96 - 1` exactly as the source does; the
  stored `Transfer.dateCreated` is the source's `uint64(block.timestamp)`
  cast, i.e. `time % 2^64`.
* `keccak256` equality on role strings is modelled as string equality
  (collision-freedom of the four role-name hashes).
* `block.timestamp` and `msg.sender` are explicit arguments of each
  operation.
* the Solidity identifiers `from`/`to` are Lean keywords (or too ambiguous),
  so the `Transfer` fields are named `fromA`/`toA`.
-/

namespace SCTrack

/-- EVM addresses, abstracted to naturals. -/
abbrev Addr := Nat

/-- `enum UserStatus` of the source. -/
inductive UserStatus where
  | Pending
  | Approved
  | Rejected
  | Canceled
deriving DecidableEq

/-- `enum TransferStatus` of the source. -/
inductive TransferStatus where
  | Pending
  | Accepted
  | Rejected
deriving DecidableEq

/-- `enum TokenType` of the source. -/
inductive TokenType where
  | RawMaterial
  | ProcessedProduct
  | FinalProduct
deriving DecidableEq

/-- `struct Token` of the source, including its nested `balance` mapping. -/
structure Token where
  id : Nat
  creator : Addr
  name : String
  totalSupply : Nat
  features : String
  tokenType : TokenType
  parentId : Nat
  dateCreated : Nat
  balance : Addr → Nat

/-- `struct Transfer` of the source (`from`/`to` renamed `fromA`/`toA`). -/
structure Transfer where
  id : Nat
  fromA : Addr
  toA : Addr
  tokenId : Nat
  dateCreated : Nat
  amount : Nat
  status : TransferStatus

/-- `struct User` of the source. -/
structure User where
  id : Nat
  userAddress : Addr
  role : String
  status : UserStatus
deriving DecidableEq

/-- The zero value of a `Token` storage slot. -/
def emptyToken : Token :=
  { id := 0, creator := 0, name := "", totalSupply := 0, features := "",
    tokenType := TokenType.RawMaterial, parentId := 0, dateCreated := 0,
    balance := fun _ => 0 }

/-- The zero value of a `Transfer` storage slot. -/
def emptyTransfer : Transfer :=
  { id := 0, fromA := 0, toA := 0, tokenId := 0, dateCreated := 0, amount := 0,
    status := TransferStatus.Pending }

/-- The zero value of a `User` storage slot. -/
def emptyUser : User :=
  { id := 0, userAddress := 0, role := "", status := UserStatus.Pending }

/-- The contract's storage: state variables of `contract SupplyChain`. -/
structure SupplyChain where
  admin : Addr
  nextTokenId : Nat
  nextTransferId : Nat
  nextUserId : Nat
  tokens : Nat → Token
  transfers : Nat → Transfer
  users : Nat → User
  addressToUserId : Addr → Nat
  userTokenIds : Addr → List Nat
  userTransferIds : Addr → List Nat

/-- The constructor: fresh storage with the deployer as admin. -/
def initState (admin : Addr) : SupplyChain :=
  { admin := admin, nextTokenId := 1, nextTransferId := 1, nextUserId := 1,
    tokens := fun _ => emptyToken, transfers := fun _ => emptyTransfer,
    users := fun _ => emptyUser, addressToUserId := fun _ => 0,
    userTokenIds := fun _ => [], userTransferIds := fun _ => [] }

/-- One constructor per distinct revert reason of the source (plus the two
Solidity 0.8 arithmetic panics and the `uint256` calldata-domain marker). -/
inductive Err where
  | invalidRole              -- "Invalid role"
  | alreadyRegistered        -- "User already registered"
  | onlyAdmin                -- "Only admin can change user status"
  | userNotFound             -- "User does not exist"
  | notRegistered            -- "User not registered"
  | notApproved              -- "User not approved"
  | emptyName                -- "Name cannot be empty"
  | zeroSupply               -- "Total supply must be greater than 0"
  | uint256Range             -- totalSupply not representable as uint256
  | producerParent           -- "Producers cannot have parent token"
  | factoryNeedsParent       -- "Factory must specify parent token"
  | retailerNeedsParent      -- "Retailer must specify parent token"
  | parentNotFound           -- "Parent token does not exist"
  | factoryParentKind        -- "Factory input must be RawMaterial"
  | retailerParentKind       -- "Retailer input must be ProcessedProduct"
  | cannotCreate             -- "Consumer cannot create tokens"
  | senderNotRegistered      -- "Sender not registered"
  | senderNotApproved        -- "Sender not approved"
  | tokenNotFound            -- "Token does not exist"
  | zeroAmount               -- "Amount must be greater than 0"
  | amountTooLarge           -- "Amount too large"
  | insufficientBalance      -- "Insufficient balance"
  | selfTransfer             -- "Cannot transfer to yourself"
  | recipientNotRegistered   -- "Recipient not registered"
  | recipientNotApproved     -- "Recipient not approved"
  | producerOnlyFactory      -- "Producer can only transfer to Factory"
  | factoryOnlyRetailer      -- "Factory can only transfer to Retailer"
  | retailerOnlyConsumer     -- "Retailer can only transfer to Consumer"
  | consumerCannotSend       -- "Consumer cannot transfer"
  | transferNotFound         -- "Transfer does not exist"
  | onlyRecipientAccept      -- "Only recipient can accept transfer"
  | onlyRecipientReject      -- "Only recipient can reject transfer"
  | transferNotPending       -- "Transfer is not pending"
  | underflow                -- checked subtraction panic (0.8 semantics)
  | overflow                 -- checked addition panic (0.8 semantics)
deriving DecidableEq

/-- `role` is one of the four recognized role names (the source compares
`keccak256(bytes(role))` against the four constant hashes). -/
def validRole (role : String) : Prop :=
  role = "Producer" ∨ role = "Factory" ∨ role = "Retailer" ∨ role = "Consumer"

instance (role : String) : Decidable (validRole role) := by
  unfold validRole; infer_instance

/-- The successful tail of `requestUserRole`: write the new `User` record in
`Pending` status, point the lookup table at it and bump the id counter. -/
def requestNew (s : SupplyChain) (sender : Addr) (role : String) :
    SupplyChain :=
  { s with
    users := Function.update s.users s.nextUserId
      { id := s.nextUserId, userAddress := sender, role := role,
        status := UserStatus.Pending },
    addressToUserId := Function.update s.addressToUserId sender s.nextUserId,
    nextUserId := s.nextUserId + 1 }

/-- `function requestUserRole(string memory role)`. -/
def requestUserRole (s : SupplyChain) (sender : Addr) (role : String) :
    Except Err SupplyChain :=
  if ¬ validRole role then .error Err.invalidRole else
  if s.addressToUserId sender ≠ 0 then .error Err.alreadyRegistered else
  .ok (requestNew s sender role)

/-- The successful tail of `changeStatusUser`: overwrite the member's status
with the given one. -/
def setStatusNew (s : SupplyChain) (userAddress : Addr)
    (newStatus : UserStatus) : SupplyChain :=
  { s with
    users := Function.update s.users (s.addressToUserId userAddress)
      { s.users (s.addressToUserId userAddress) with status := newStatus } }

/-- `function changeStatusUser(address userAddress, UserStatus newStatus)`. -/
def changeStatusUser (s : SupplyChain) (sender userAddress : Addr)
    (newStatus : UserStatus) : Except Err SupplyChain :=
  if sender ≠ s.admin then .error Err.onlyAdmin else
  if s.addressToUserId userAddress = 0 then .error Err.userNotFound else
  .ok (setStatusNew s userAddress newStatus)

/-- The successful tail of `createToken`: write the new `Token` record, credit
the whole supply to the creator and push the new id onto the creator's token
list.  As in the source, the fresh slot's `balance` mapping is updated in
place (it is all-zero in any reachable state). -/
def createTokenNew (s : SupplyChain) (sender : Addr) (name : String)
    (totalSupply : Nat) (features : String) (parentId : Nat) (time : Nat)
    (tt : TokenType) : SupplyChain :=
  { s with
    tokens := Function.update s.tokens s.nextTokenId
      { id := s.nextTokenId, creator := sender, name := name,
        totalSupply := totalSupply, features := features, tokenType := tt,
        parentId := parentId, dateCreated := time,
        balance := Function.update (s.tokens s.nextTokenId).balance sender
          totalSupply },
    userTokenIds := Function.update s.userTokenIds sender
      (s.userTokenIds sender ++ [s.nextTokenId]),
    nextTokenId := s.nextTokenId + 1 }

/-- `function createToken(string name, uint256 totalSupply, string features,
uint256 parentId)`; `time` is `block.timestamp`. -/
def createToken (s : SupplyChain) (sender : Addr) (name : String)
    (totalSupply : Nat) (features : String) (parentId : Nat) (time : Nat) :
    Except Err SupplyChain :=
  if s.addressToUserId sender = 0 then .error Err.notRegistered else
  if (s.users (s.addressToUserId sender)).status ≠ UserStatus.Approved then
    .error Err.notApproved else
  if name = "" then .error Err.emptyName else
  if totalSupply = 0 then .error Err.zeroSupply else
  if 2 ^ 256 ≤ totalSupply then .error Err.uint256Range else
  if (s.users (s.addressToUserId sender)).role = "Producer" then
    (if parentId ≠ 0 then .error Err.producerParent else
     .ok (createTokenNew s sender name totalSupply features parentId time
       TokenType.RawMaterial))
  else if (s.users (s.addressToUserId sender)).role = "Factory" then
    (if parentId = 0 then .error Err.factoryNeedsParent else
     if s.nextTokenId ≤ parentId then .error Err.parentNotFound else
     if (s.tokens parentId).tokenType ≠ TokenType.RawMaterial then
       .error Err.factoryParentKind else
     .ok (createTokenNew s sender name totalSupply features parentId time
       TokenType.ProcessedProduct))
  else if (s.users (s.addressToUserId sender)).role = "Retailer" then
    (if parentId = 0 then .error Err.retailerNeedsParent else
     if s.nextTokenId ≤ parentId then .error Err.parentNotFound else
     if (s.tokens parentId).tokenType ≠ TokenType.ProcessedProduct then
       .error Err.retailerParentKind else
     .ok (createTokenNew s sender name totalSupply features parentId time
       TokenType.FinalProduct))
  else .error Err.cannotCreate

/-- `function getUserTokens(address userAddress)`. -/
def getUserTokens (s : SupplyChain) (userAddress : Addr) : List Nat :=
  s.userTokenIds userAddress

/-- `function getTokenBalance(uint256 tokenId, address userAddress)`. -/
def getTokenBalance (s : SupplyChain) (tokenId : Nat) (userAddress : Addr) :
    Except Err Nat :=
  if ¬ (1 ≤ tokenId ∧ tokenId < s.nextTokenId) then .error Err.tokenNotFound
  else .ok ((s.tokens tokenId).balance userAddress)

/-- `_removeTokenId`'s swap-and-pop loop: the first occurrence of `tokenId`
is overwritten with the list's last element and the last element is popped;
the list is unchanged when `tokenId` does not occur. -/
def removeTokenId : List Nat → Nat → List Nat
  | [], _ => []
  | [x], t => if x = t then [] else [x]
  | x :: y :: rest, t =>
      if x = t then
        (y :: rest).getLast (by simp) :: (y :: rest).dropLast
      else
        x :: removeTokenId (y :: rest) t

/-- The successful tail of `transfer`: record the new pending `Transfer` and
push its id onto both parties' history lists. -/
def transferNew (s : SupplyChain) (sender toAddr : Addr)
    (tokenId amount time : Nat) : SupplyChain :=
  { s with
    transfers := Function.update s.transfers s.nextTransferId
      { id := s.nextTransferId, fromA := sender, toA := toAddr,
        tokenId := tokenId, dateCreated := time % 2 ^ 64, amount := amount,
        status := TransferStatus.Pending },
    userTransferIds := Function.update
      (Function.update s.userTransferIds sender
        (s.userTransferIds sender ++ [s.nextTransferId]))
      toAddr
      ((Function.update s.userTransferIds sender
        (s.userTransferIds sender ++ [s.nextTransferId])) toAddr
        ++ [s.nextTransferId]),
    nextTransferId := s.nextTransferId + 1 }

/-- `function transfer(address to, uint256 tokenId, uint256 amount)`; `time`
is `block.timestamp`.  Note the source's role-flow chain has no final `else`
branch: a sender whose stored role matched none of the four hashes would fall
through to the creation code (unreachable for registered users). -/
def transfer (s : SupplyChain) (sender toAddr : Addr)
    (tokenId amount time : Nat) : Except Err SupplyChain :=
  if s.addressToUserId sender = 0 then .error Err.senderNotRegistered else
  if (s.users (s.addressToUserId sender)).status ≠ UserStatus.Approved then
    .error Err.senderNotApproved else
  if ¬ (1 ≤ tokenId ∧ tokenId < s.nextTokenId) then .error Err.tokenNotFound else
  if amount = 0 then .error Err.zeroAmount else
  if 2 ^ 96 - 1 < amount then .error Err.amountTooLarge else
  if (s.tokens tokenId).balance sender < amount then
    .error Err.insufficientBalance else
  if toAddr = sender then .error Err.selfTransfer else
  if s.addressToUserId toAddr = 0 then .error Err.recipientNotRegistered else
  if (s.users (s.addressToUserId toAddr)).status ≠ UserStatus.Approved then
    .error Err.recipientNotApproved else
  if (s.users (s.addressToUserId sender)).role = "Producer" then
    (if (s.users (s.addressToUserId toAddr)).role ≠ "Factory" then
       .error Err.producerOnlyFactory
     else .ok (transferNew s sender toAddr tokenId amount time))
  else if (s.users (s.addressToUserId sender)).role = "Factory" then
    (if (s.users (s.addressToUserId toAddr)).role ≠ "Retailer" then
       .error Err.factoryOnlyRetailer
     else .ok (transferNew s sender toAddr tokenId amount time))
  else if (s.users (s.addressToUserId sender)).role = "Retailer" then
    (if (s.users (s.addressToUserId toAddr)).role ≠ "Consumer" then
       .error Err.retailerOnlyConsumer
     else .ok (transferNew s sender toAddr tokenId amount time))
  else if (s.users (s.addressToUserId sender)).role = "Consumer" then
    .error Err.consumerCannotSend
  else .ok (transferNew s sender toAddr tokenId amount time)

/-- The sender's balance column after `balance[from] -= amount`. -/
def acceptB1 (s : SupplyChain) (transferId : Nat) : Addr → Nat :=
  Function.update (s.tokens (s.transfers transferId).tokenId).balance
    (s.transfers transferId).fromA
    ((s.tokens (s.transfers transferId).tokenId).balance
      (s.transfers transferId).fromA - (s.transfers transferId).amount)

/-- The balance column after the subsequent `balance[to] += amount`. -/
def acceptB2 (s : SupplyChain) (transferId : Nat) : Addr → Nat :=
  Function.update (acceptB1 s transferId) (s.transfers transferId).toA
    (acceptB1 s transferId (s.transfers transferId).toA
      + (s.transfers transferId).amount)

/-- The successful tail of `acceptTransfer`, mirroring the source's order:
push `tokenId` onto `to`'s list when `to`'s balance was zero, move the funds,
swap-and-pop `tokenId` out of `from`'s list when `from`'s balance hits zero,
and mark the request `Accepted`. -/
def acceptNew (s : SupplyChain) (transferId : Nat) : SupplyChain :=
  { s with
    tokens := Function.update s.tokens (s.transfers transferId).tokenId
      { s.tokens (s.transfers transferId).tokenId with
        balance := acceptB2 s transferId },
    userTokenIds :=
      (fun uIds1 => Function.update uIds1 (s.transfers transferId).fromA
        (if acceptB2 s transferId (s.transfers transferId).fromA = 0 then
           removeTokenId (uIds1 (s.transfers transferId).fromA)
             (s.transfers transferId).tokenId
         else uIds1 (s.transfers transferId).fromA))
      (Function.update s.userTokenIds (s.transfers transferId).toA
        (if (s.tokens (s.transfers transferId).tokenId).balance
              (s.transfers transferId).toA = 0 then
           s.userTokenIds (s.transfers transferId).toA
             ++ [(s.transfers transferId).tokenId]
         else s.userTokenIds (s.transfers transferId).toA)),
    transfers := Function.update s.transfers transferId
      { s.transfers transferId with status := TransferStatus.Accepted } }

/-- `function acceptTransfer(uint256 transferId)`. -/
def acceptTransfer (s : SupplyChain) (sender : Addr) (transferId : Nat) :
    Except Err SupplyChain :=
  if ¬ (1 ≤ transferId ∧ transferId < s.nextTransferId) then
    .error Err.transferNotFound else
  if sender ≠ (s.transfers transferId).toA then .error Err.onlyRecipientAccept else
  if (s.transfers transferId).status ≠ TransferStatus.Pending then
    .error Err.transferNotPending else
  if (s.tokens (s.transfers transferId).tokenId).balance
       (s.transfers transferId).fromA < (s.transfers transferId).amount then
    .error Err.underflow else
  if 2 ^ 256 ≤ acceptB1 s transferId (s.transfers transferId).toA
       + (s.transfers transferId).amount then .error Err.overflow else
  .ok (acceptNew s transferId)

/-- The successful tail of `rejectTransfer`: only the status changes. -/
def rejectNew (s : SupplyChain) (transferId : Nat) : SupplyChain :=
  { s with
    transfers := Function.update s.transfers transferId
      { s.transfers transferId with status := TransferStatus.Rejected } }

/-- `function rejectTransfer(uint256 transferId)`. -/
def rejectTransfer (s : SupplyChain) (sender : Addr) (transferId : Nat) :
    Except Err SupplyChain :=
  if ¬ (1 ≤ transferId ∧ transferId < s.nextTransferId) then
    .error Err.transferNotFound else
  if sender ≠ (s.transfers transferId).toA then .error Err.onlyRecipientReject else
  if (s.transfers transferId).status ≠ TransferStatus.Pending then
    .error Err.transferNotPending else
  .ok (rejectNew s transferId)

/-- The mutating entry points, each tagged with its caller (`msg.sender`) and,
where the source reads `block.timestamp`, the block time. -/
inductive Op where
  | requestUserRole (sender : Addr) (role : String)
  | changeStatusUser (sender userAddress : Addr) (newStatus : UserStatus)
  | createToken (sender : Addr) (name : String) (totalSupply : Nat)
      (features : String) (parentId : Nat) (time : Nat)
  | transfer (sender toAddr : Addr) (tokenId amount time : Nat)
  | acceptTransfer (sender : Addr) (transferId : Nat)
  | rejectTransfer (sender : Addr) (transferId : Nat)

/-- Dispatch one external call. -/
def step (s : SupplyChain) : Op → Except Err SupplyChain
  | .requestUserRole sender role => requestUserRole s sender role
  | .changeStatusUser sender userAddress newStatus =>
      changeStatusUser s sender userAddress newStatus
  | .createToken sender name totalSupply features parentId time =>
      createToken s sender name totalSupply features parentId time
  | .transfer sender toAddr tokenId amount time =>
      transfer s sender toAddr tokenId amount time
  | .acceptTransfer sender transferId => acceptTransfer s sender transferId
  | .rejectTransfer sender transferId => rejectTransfer s sender transferId

/-- Run a sequence of calls, stopping at the first revert. -/
def runOps : SupplyChain → List Op → Except Err SupplyChain
  | s, [] => .ok s
  | s, op :: ops => match step s op with
      | .ok s' => runOps s' ops
      | .error e => .error e

/-- States of the deployed contract: everything a sequence of successful
external calls can produce from a fresh deployment. -/
inductive Reachable : SupplyChain → Prop where
  | init (admin : Addr) : Reachable (initState admin)
  | next {s : SupplyChain} {op : Op} {s' : SupplyChain} :
      Reachable s → step s op = .ok s' → Reachable s'

/-- The approval status the contract currently records for a principal
(`users[addressToUserId[a]].status`; defaults to `Pending` off the table). -/
def statusOf (s : SupplyChain) (a : Addr) : UserStatus :=
  (s.users (s.addressToUserId a)).status

/-- "The sum of all holder balances of this column is `n`": the column has
finite support and its total over any support-covering finite set is `n`. -/
def SumEq (f : Addr → Nat) (n : Nat) : Prop :=
  ∃ sup : Finset Addr, (∀ a, a ∉ sup → f a = 0) ∧ Finset.sum sup f = n

/-- The three role pairs the source's flow validation lets through:
Producer→Factory, Factory→Retailer, Retailer→Consumer. -/
def allowedPair (r1 r2 : String) : Prop :=
  (r1 = "Producer" ∧ r2 = "Factory") ∨ (r1 = "Factory" ∧ r2 = "Retailer") ∨
  (r1 = "Retailer" ∧ r2 = "Consumer")

instance (r1 r2 : String) : Decidable (allowedPair r1 r2) := by
  unfold allowedPair
  infer_instance

/-- The revert reasons the specification's error taxonomy groups under
`InvalidRoleFlow` (per its §7 it also covers the Consumer-cannot-send case). -/
def roleFlowError (e : Err) : Prop :=
  e = Err.producerOnlyFactory ∨ e = Err.factoryOnlyRetailer ∨
  e = Err.retailerOnlyConsumer ∨ e = Err.consumerCannotSend

instance (e : Err) : Decidable (roleFlowError e) := by
  unfold roleFlowError
  infer_instance

/-- Extract the state of a successful run (fresh deployment on failure; only
ever applied to runs that are proven successful). -/
def getOk : Except Err SupplyChain → SupplyChain
  | .ok s => s
  | .error _ => initState 0

/-! Concrete executions used as witnesses: admin `0`, a Producer `1`, a
Factory `2`. -/

def opsReg : List Op :=
  [Op.requestUserRole 1 "Producer",
   Op.changeStatusUser 0 1 UserStatus.Approved,
   Op.requestUserRole 2 "Factory",
   Op.changeStatusUser 0 2 UserStatus.Approved]

/-- Producer and Factory registered and approved. -/
def sReg : SupplyChain := getOk (runOps (initState 0) opsReg)

def opsMint : List Op :=
  opsReg ++ [Op.createToken 1 "Grain" 100 "" 0 5]

/-- ... and the Producer minted 100 units of token 1. -/
def sMint : SupplyChain := getOk (runOps (initState 0) opsMint)

def opsPend : List Op :=
  opsMint ++ [Op.transfer 1 2 1 60 6]

/-- ... and requested a transfer of 60 units to the Factory (pending). -/
def sPend : SupplyChain := getOk (runOps (initState 0) opsPend)

def opsAcc : List Op :=
  opsPend ++ [Op.acceptTransfer 2 1]

/-- ... and the Factory accepted it. -/
def sAcc : SupplyChain := getOk (runOps (initState 0) opsAcc)

def opsBig : List Op :=
  opsReg ++ [Op.createToken 1 "Bulk" (2 ^ 96) "" 0 5]

/-- Producer holds `2 ^ 96` units of token 1: a balance larger than any
single transfer request can carry. -/
def sBig : SupplyChain := getOk (runOps (initState 0) opsBig)

def opsDouble : List Op :=
  opsReg ++ [Op.createToken 1 "Grain" 100 "" 0 5,
    Op.transfer 1 2 1 100 6, Op.transfer 1 2 1 100 7,
    Op.acceptTransfer 2 1]

/-- Two pending full-balance transfers were created; the first was accepted,
so the second is still `Pending` but the sender's balance is exhausted. -/
def sDouble : SupplyChain := getOk (runOps (initState 0) opsDouble)

/-! ### Lemmas about the swap-and-pop removal -/

theorem removeTokenId_of_not_mem :
    ∀ (ids : List Nat) (t : Nat), t ∉ ids → removeTokenId ids t = ids
  | [], _, _ => rfl
  | [x], t, h => by
      have hx : x ≠ t := fun he => h (he ▸ List.mem_singleton_self x)
      simp [removeTokenId, hx]
  | x :: y :: rest, t, h => by
      have hx : x ≠ t := fun he => h (by simp [he])
      have h2 : t ∉ y :: rest := fun hm => h (List.mem_cons_of_mem _ hm)
      simp only [removeTokenId, if_neg hx,
        removeTokenId_of_not_mem (y :: rest) t h2]

theorem removeTokenId_perm :
    ∀ (ids : List Nat) (t : Nat), t ∈ ids →
      (removeTokenId ids t).Perm (ids.erase t)
  | [x], t, h => by
      have hx : t = x := by simpa using h
      subst hx
      simp [removeTokenId]
  | x :: y :: rest, t, h => by
      by_cases hx : x = t
      · subst hx
        rw [List.erase_cons_head]
        simp only [removeTokenId, if_pos rfl]
        have hne : (y :: rest) ≠ [] := by simp
        have hd : (y :: rest).dropLast ++ [(y :: rest).getLast hne]
            = y :: rest := List.dropLast_append_getLast hne
        exact (List.perm_append_singleton _ _).symm.trans (by rw [hd])
      · have h2 : t ∈ y :: rest := by
          rcases List.mem_cons.1 h with h | h
          · exact absurd h.symm hx
          · exact h
        rw [List.erase_cons_tail (by simpa using hx)]
        simp only [removeTokenId, if_neg hx]
        exact (removeTokenId_perm (y :: rest) t h2).cons x

theorem removeTokenId_nodup {ids : List Nat} {t : Nat} (h : ids.Nodup) :
    (removeTokenId ids t).Nodup := by
  by_cases hm : t ∈ ids
  · exact ((removeTokenId_perm ids t hm).symm).nodup (List.Nodup.erase t h)
  · rw [removeTokenId_of_not_mem ids t hm]; exact h

theorem mem_removeTokenId {ids : List Nat} {t x : Nat} (h : ids.Nodup) :
    x ∈ removeTokenId ids t ↔ x ∈ ids ∧ x ≠ t := by
  by_cases hm : t ∈ ids
  · rw [(removeTokenId_perm ids t hm).mem_iff, h.mem_erase_iff]
    tauto
  · rw [removeTokenId_of_not_mem ids t hm]
    exact ⟨fun hx => ⟨hx, fun he => hm (he ▸ hx)⟩, fun hx => hx.1⟩

/-! ### Lemmas about balance-column sums -/

theorem sumEq_update_zero (c : Addr) (v : Nat) :
    SumEq (Function.update (fun _ => 0) c v) v := by
  refine ⟨{c}, ?_, ?_⟩
  · intro a ha
    have hac : a ≠ c := by simpa using ha
    simp [Function.update_noteq hac]
  · simp

/-- Extend a support witness so that it contains two given addresses. -/
theorem SumEq.cover {f : Addr → Nat} {n : Nat} (h : SumEq f n) (x y : Addr) :
    ∃ s : Finset Addr, x ∈ s ∧ y ∈ s ∧ (∀ a, a ∉ s → f a = 0) ∧
      Finset.sum s f = n := by
  obtain ⟨s, h0, hs⟩ := h
  refine ⟨insert x (insert y s), Finset.mem_insert_self _ _,
    Finset.mem_insert_of_mem (Finset.mem_insert_self _ _), ?_, ?_⟩
  · intro a ha
    exact h0 a (fun hmem =>
      ha (Finset.mem_insert_of_mem (Finset.mem_insert_of_mem hmem)))
  · rw [Finset.sum_insert_of_eq_zero_if_not_mem
      (fun hx => h0 x (fun hmem => hx (Finset.mem_insert_of_mem hmem))),
      Finset.sum_insert_of_eq_zero_if_not_mem (fun hy => h0 y hy)]
    exact hs

/-- Moving `m ≤ f x` units from `x` to a distinct `y` preserves the total. -/
theorem SumEq.move {f : Addr → Nat} {n : Nat} {x y : Addr} {m : Nat}
    (h : SumEq f n) (hxy : x ≠ y) (hm : m ≤ f x) :
    SumEq (Function.update (Function.update f x (f x - m)) y
      ((Function.update f x (f x - m)) y + m)) n := by
  have hyx : (Function.update f x (f x - m)) y = f y :=
    Function.update_noteq (Ne.symm hxy) _ _
  rw [hyx]
  obtain ⟨s1, hxs, hys, h0, hsum1⟩ := h.cover x y
  refine ⟨s1, ?_, ?_⟩
  · intro a ha
    have hax : a ≠ x := fun he => ha (he ▸ hxs)
    have hay : a ≠ y := fun he => ha (he ▸ hys)
    rw [Function.update_noteq hay, Function.update_noteq hax]
    exact h0 a ha
  · have hxs' : x ∈ s1 \ {y} := Finset.mem_sdiff.2 ⟨hxs, by simp [hxy]⟩
    rw [Finset.sum_update_of_mem hys, Finset.sum_update_of_mem hxs']
    show (f y + m) + ((f x - m) + Finset.sum ((s1 \ {y}) \ {x}) f) = n
    have e1 : Finset.sum s1 f = Finset.sum (s1 \ {y}) f + f y :=
      Finset.sum_eq_sum_diff_singleton_add hys f
    have e2 : Finset.sum (s1 \ {y}) f
        = Finset.sum ((s1 \ {y}) \ {x}) f + f x :=
      Finset.sum_eq_sum_diff_singleton_add hxs' f
    omega

/-- Two distinct holders never hold more than the total together. -/
theorem SumEq.two_le {f : Addr → Nat} {n : Nat} {x y : Addr}
    (h : SumEq f n) (hxy : x ≠ y) : f x + f y ≤ n := by
  obtain ⟨s1, hxs, hys, _, hsum1⟩ := h.cover x y
  have hsub : ({x, y} : Finset Addr) ⊆ s1 := by
    intro a ha
    rcases Finset.mem_insert.1 ha with rfl | ha
    · exact hxs
    · exact (Finset.mem_singleton.1 ha) ▸ hys
  calc f x + f y = Finset.sum {x, y} f := (Finset.sum_pair hxy).symm
    _ ≤ Finset.sum s1 f := Finset.sum_le_sum_of_subset hsub
    _ = n := hsum1

/-! ### The reachable-state invariant -/

/-- The state invariant maintained by every external call: storage counters
start at one; unminted token slots and unregistered user slots still hold
their zero values; every minted token's balances sum to its `totalSupply`
(which fits in a `uint256`); each `_userTokenIds` list is duplicate-free and
holds exactly the token ids of the positive balances of its owner; every
recorded transfer has distinct parties, an existing token and a positive
amount; and `addressToUserId` only points below `nextUserId`. -/
structure Inv (s : SupplyChain) : Prop where
  userId_pos : 1 ≤ s.nextUserId
  tokenId_pos : 1 ≤ s.nextTokenId
  transferId_pos : 1 ≤ s.nextTransferId
  token_zero : ∀ t, ¬ (1 ≤ t ∧ t < s.nextTokenId) → s.tokens t = emptyToken
  conservation : ∀ t, 1 ≤ t → t < s.nextTokenId →
    SumEq (s.tokens t).balance (s.tokens t).totalSupply
  supply_bound : ∀ t, 1 ≤ t → t < s.nextTokenId →
    (s.tokens t).totalSupply < 2 ^ 256
  index_nodup : ∀ a, (s.userTokenIds a).Nodup
  index_mem : ∀ a t, t ∈ s.userTokenIds a ↔ 0 < (s.tokens t).balance a
  transfer_wf : ∀ i, 1 ≤ i → i < s.nextTransferId →
    (s.transfers i).fromA ≠ (s.transfers i).toA ∧
    1 ≤ (s.transfers i).tokenId ∧ (s.transfers i).tokenId < s.nextTokenId ∧
    1 ≤ (s.transfers i).amount
  user_bound : ∀ a, s.addressToUserId a < s.nextUserId
  user_zero : ∀ u, ¬ (1 ≤ u ∧ u < s.nextUserId) → s.users u = emptyUser

theorem inv_init (admin : Addr) : Inv (initState admin) := by
  refine ⟨le_refl 1, le_refl 1, le_refl 1, fun _ _ => rfl, ?_, ?_, ?_, ?_, ?_,
    ?_, fun _ _ => rfl⟩
  · intro t h1 h2
    exact absurd (lt_of_le_of_lt h1 h2) (lt_irrefl 1)
  · intro t h1 h2
    exact absurd (lt_of_le_of_lt h1 h2) (lt_irrefl 1)
  · intro a
    exact List.nodup_nil
  · intro a t
    simp [initState, emptyToken]
  · intro i h1 h2
    exact absurd (lt_of_le_of_lt h1 h2) (lt_irrefl 1)
  · intro a
    exact Nat.lt_of_lt_of_le Nat.zero_lt_one (le_refl 1)

theorem inv_requestUserRole {s : SupplyChain} {sender : Addr} {role : String}
    {s' : SupplyChain} (hI : Inv s)
    (h : requestUserRole s sender role = .ok s') : Inv s' := by
  unfold requestUserRole at h
  split_ifs at h with h1 h2
  injection h with h
  subst h
  refine ⟨?_, hI.tokenId_pos, hI.transferId_pos, hI.token_zero,
    hI.conservation, hI.supply_bound, hI.index_nodup, hI.index_mem,
    hI.transfer_wf, ?_, ?_⟩
  · exact Nat.le_succ_of_le hI.userId_pos
  · intro a
    dsimp only [requestNew]
    by_cases ha : a = sender
    · subst ha
      rw [Function.update_same]
      omega
    · rw [Function.update_noteq ha]
      have := hI.user_bound a
      omega
  · intro u hu
    dsimp only [requestNew] at hu ⊢
    have hpos := hI.userId_pos
    have hun : u ≠ s.nextUserId := by
      intro he
      subst he
      omega
    rw [Function.update_noteq hun]
    exact hI.user_zero u (by omega)

theorem inv_changeStatusUser {s : SupplyChain} {sender userAddress : Addr}
    {newStatus : UserStatus} {s' : SupplyChain} (hI : Inv s)
    (h : changeStatusUser s sender userAddress newStatus = .ok s') : Inv s' := by
  unfold changeStatusUser at h
  split_ifs at h with h1 h2
  injection h with h
  subst h
  refine ⟨hI.userId_pos, hI.tokenId_pos, hI.transferId_pos, hI.token_zero,
    hI.conservation, hI.supply_bound, hI.index_nodup, hI.index_mem,
    hI.transfer_wf, hI.user_bound, ?_⟩
  · intro u hu
    dsimp only [setStatusNew] at hu ⊢
    have hb := hI.user_bound userAddress
    have hun : u ≠ s.addressToUserId userAddress := by
      intro he
      subst he
      exact hu ⟨Nat.one_le_iff_ne_zero.2 h2, hb⟩
    rw [Function.update_noteq hun]
    exact hI.user_zero u hu

theorem inv_rejectTransfer {s : SupplyChain} {sender : Addr}
    {transferId : Nat} {s' : SupplyChain} (hI : Inv s)
    (h : rejectTransfer s sender transferId = .ok s') : Inv s' := by
  unfold rejectTransfer at h
  split_ifs at h with h1 h2 h3
  injection h with h
  subst h
  refine ⟨hI.userId_pos, hI.tokenId_pos, hI.transferId_pos, hI.token_zero,
    hI.conservation, hI.supply_bound, hI.index_nodup, hI.index_mem, ?_,
    hI.user_bound, hI.user_zero⟩
  · intro i hi1 hi2
    dsimp only [rejectNew] at hi2 ⊢
    by_cases he : i = transferId
    · subst he
      rw [Function.update_same]
      dsimp only
      exact hI.transfer_wf i hi1 hi2
    · rw [Function.update_noteq he]
      exact hI.transfer_wf i hi1 hi2

theorem inv_transferNew {s : SupplyChain} {sender toAddr : Addr}
    {tokenId amount time : Nat} (hI : Inv s) (hne : sender ≠ toAddr)
    (htok1 : 1 ≤ tokenId) (htok2 : tokenId < s.nextTokenId)
    (hamt : 1 ≤ amount) :
    Inv (transferNew s sender toAddr tokenId amount time) := by
  refine ⟨hI.userId_pos, hI.tokenId_pos, ?_, hI.token_zero, hI.conservation,
    hI.supply_bound, hI.index_nodup, hI.index_mem, ?_, hI.user_bound,
    hI.user_zero⟩
  · have := hI.transferId_pos
    simp only [transferNew]
    omega
  · intro i hi1 hi2
    simp only [transferNew] at hi2 ⊢
    by_cases he : i = s.nextTransferId
    · subst he
      rw [Function.update_same]
      exact ⟨hne, htok1, htok2, hamt⟩
    · rw [Function.update_noteq he]
      exact hI.transfer_wf i hi1 (by omega)

/-- A successful `transfer` call is exactly `transferNew` on a state passing
all nine `require` checks. -/
theorem transfer_ok {s : SupplyChain} {sender toAddr : Addr}
    {tokenId amount time : Nat} {s' : SupplyChain}
    (h : transfer s sender toAddr tokenId amount time = .ok s') :
    s' = transferNew s sender toAddr tokenId amount time ∧
    s.addressToUserId sender ≠ 0 ∧
    (s.users (s.addressToUserId sender)).status = UserStatus.Approved ∧
    (1 ≤ tokenId ∧ tokenId < s.nextTokenId) ∧ amount ≠ 0 ∧
    amount ≤ 2 ^ 96 - 1 ∧ amount ≤ (s.tokens tokenId).balance sender ∧
    toAddr ≠ sender ∧ s.addressToUserId toAddr ≠ 0 ∧
    (s.users (s.addressToUserId toAddr)).status = UserStatus.Approved ∧
    (allowedPair (s.users (s.addressToUserId sender)).role
      (s.users (s.addressToUserId toAddr)).role ∨
     ¬ validRole (s.users (s.addressToUserId sender)).role) := by
  unfold transfer at h
  by_cases h1 : s.addressToUserId sender = 0
  · rw [if_pos h1] at h
    exact Except.noConfusion h
  rw [if_neg h1] at h
  by_cases h2 : (s.users (s.addressToUserId sender)).status ≠ UserStatus.Approved
  · rw [if_pos h2] at h
    exact Except.noConfusion h
  rw [if_neg h2] at h
  by_cases h3 : ¬ (1 ≤ tokenId ∧ tokenId < s.nextTokenId)
  · rw [if_pos h3] at h
    exact Except.noConfusion h
  rw [if_neg h3] at h
  by_cases h4 : amount = 0
  · rw [if_pos h4] at h
    exact Except.noConfusion h
  rw [if_neg h4] at h
  by_cases h5 : 2 ^ 96 - 1 < amount
  · rw [if_pos h5] at h
    exact Except.noConfusion h
  rw [if_neg h5] at h
  by_cases h6 : (s.tokens tokenId).balance sender < amount
  · rw [if_pos h6] at h
    exact Except.noConfusion h
  rw [if_neg h6] at h
  by_cases h7 : toAddr = sender
  · rw [if_pos h7] at h
    exact Except.noConfusion h
  rw [if_neg h7] at h
  by_cases h8 : s.addressToUserId toAddr = 0
  · rw [if_pos h8] at h
    exact Except.noConfusion h
  rw [if_neg h8] at h
  by_cases h9 : (s.users (s.addressToUserId toAddr)).status ≠ UserStatus.Approved
  · rw [if_pos h9] at h
    exact Except.noConfusion h
  rw [if_neg h9] at h
  have finish : ∀ (_ : transferNew s sender toAddr tokenId amount time = s')
      (_ : allowedPair (s.users (s.addressToUserId sender)).role
          (s.users (s.addressToUserId toAddr)).role ∨
        ¬ validRole (s.users (s.addressToUserId sender)).role),
      s' = transferNew s sender toAddr tokenId amount time ∧
      s.addressToUserId sender ≠ 0 ∧
      (s.users (s.addressToUserId sender)).status = UserStatus.Approved ∧
      (1 ≤ tokenId ∧ tokenId < s.nextTokenId) ∧ amount ≠ 0 ∧
      amount ≤ 2 ^ 96 - 1 ∧ amount ≤ (s.tokens tokenId).balance sender ∧
      toAddr ≠ sender ∧ s.addressToUserId toAddr ≠ 0 ∧
      (s.users (s.addressToUserId toAddr)).status = UserStatus.Approved ∧
      (allowedPair (s.users (s.addressToUserId sender)).role
        (s.users (s.addressToUserId toAddr)).role ∨
       ¬ validRole (s.users (s.addressToUserId sender)).role) :=
    fun hh hrole => ⟨hh.symm, h1, not_not.1 h2, not_not.1 h3, h4,
      Nat.le_of_not_lt h5, Nat.le_of_not_lt h6, h7, h8, not_not.1 h9, hrole⟩
  by_cases hp : (s.users (s.addressToUserId sender)).role = "Producer"
  · rw [if_pos hp] at h
    by_cases hpf : (s.users (s.addressToUserId toAddr)).role ≠ "Factory"
    · rw [if_pos hpf] at h
      exact Except.noConfusion h
    rw [if_neg hpf] at h
    injection h with h
    exact finish h (Or.inl (Or.inl ⟨hp, not_not.1 hpf⟩))
  rw [if_neg hp] at h
  by_cases hf : (s.users (s.addressToUserId sender)).role = "Factory"
  · rw [if_pos hf] at h
    by_cases hfr : (s.users (s.addressToUserId toAddr)).role ≠ "Retailer"
    · rw [if_pos hfr] at h
      exact Except.noConfusion h
    rw [if_neg hfr] at h
    injection h with h
    exact finish h (Or.inl (Or.inr (Or.inl ⟨hf, not_not.1 hfr⟩)))
  rw [if_neg hf] at h
  by_cases hr : (s.users (s.addressToUserId sender)).role = "Retailer"
  · rw [if_pos hr] at h
    by_cases hrc : (s.users (s.addressToUserId toAddr)).role ≠ "Consumer"
    · rw [if_pos hrc] at h
      exact Except.noConfusion h
    rw [if_neg hrc] at h
    injection h with h
    exact finish h (Or.inl (Or.inr (Or.inr ⟨hr, not_not.1 hrc⟩)))
  rw [if_neg hr] at h
  by_cases hc : (s.users (s.addressToUserId sender)).role = "Consumer"
  · rw [if_pos hc] at h
    exact Except.noConfusion h
  rw [if_neg hc] at h
  injection h with h
  refine finish h (Or.inr ?_)
  intro hv
  rcases hv with hv | hv | hv | hv
  · exact hp hv
  · exact hf hv
  · exact hr hv
  · exact hc hv

theorem inv_transfer {s : SupplyChain} {sender toAddr : Addr}
    {tokenId amount time : Nat} {s' : SupplyChain} (hI : Inv s)
    (h : transfer s sender toAddr tokenId amount time = .ok s') : Inv s' := by
  obtain ⟨hs', h1, h2, h3, h4, h5, h6, h7, h8, h9⟩ := transfer_ok h
  subst hs'
  exact inv_transferNew hI (Ne.symm h7) h3.1 h3.2 (Nat.one_le_iff_ne_zero.2 h4)

/-- A successful `createToken` call passed all checks and is `createTokenNew`
with the token type determined by the creator's role. -/
theorem createToken_ok {s : SupplyChain} {sender : Addr} {name : String}
    {totalSupply : Nat} {features : String} {parentId time : Nat}
    {s' : SupplyChain}
    (h : createToken s sender name totalSupply features parentId time = .ok s') :
    s.addressToUserId sender ≠ 0 ∧
    (s.users (s.addressToUserId sender)).status = UserStatus.Approved ∧
    name ≠ "" ∧ totalSupply ≠ 0 ∧ totalSupply < 2 ^ 256 ∧
    ((s' = createTokenNew s sender name totalSupply features parentId time
        TokenType.RawMaterial ∧
      (s.users (s.addressToUserId sender)).role = "Producer" ∧ parentId = 0) ∨
     (s' = createTokenNew s sender name totalSupply features parentId time
        TokenType.ProcessedProduct ∧
      (s.users (s.addressToUserId sender)).role = "Factory" ∧ parentId ≠ 0 ∧
      parentId < s.nextTokenId ∧
      (s.tokens parentId).tokenType = TokenType.RawMaterial) ∨
     (s' = createTokenNew s sender name totalSupply features parentId time
        TokenType.FinalProduct ∧
      (s.users (s.addressToUserId sender)).role = "Retailer" ∧ parentId ≠ 0 ∧
      parentId < s.nextTokenId ∧
      (s.tokens parentId).tokenType = TokenType.ProcessedProduct)) := by
  unfold createToken at h
  by_cases h1 : s.addressToUserId sender = 0
  · rw [if_pos h1] at h
    exact Except.noConfusion h
  rw [if_neg h1] at h
  by_cases h2 : (s.users (s.addressToUserId sender)).status ≠ UserStatus.Approved
  · rw [if_pos h2] at h
    exact Except.noConfusion h
  rw [if_neg h2] at h
  by_cases h3 : name = ""
  · rw [if_pos h3] at h
    exact Except.noConfusion h
  rw [if_neg h3] at h
  by_cases h4 : totalSupply = 0
  · rw [if_pos h4] at h
    exact Except.noConfusion h
  rw [if_neg h4] at h
  by_cases h5 : 2 ^ 256 ≤ totalSupply
  · rw [if_pos h5] at h
    exact Except.noConfusion h
  rw [if_neg h5] at h
  by_cases hp : (s.users (s.addressToUserId sender)).role = "Producer"
  · rw [if_pos hp] at h
    by_cases hpp : parentId ≠ 0
    · rw [if_pos hpp] at h
      exact Except.noConfusion h
    rw [if_neg hpp] at h
    injection h with h
    exact ⟨h1, not_not.1 h2, h3, h4, Nat.lt_of_not_le h5,
      Or.inl ⟨h.symm, hp, not_not.1 hpp⟩⟩
  rw [if_neg hp] at h
  by_cases hf : (s.users (s.addressToUserId sender)).role = "Factory"
  · rw [if_pos hf] at h
    by_cases hf1 : parentId = 0
    · rw [if_pos hf1] at h
      exact Except.noConfusion h
    rw [if_neg hf1] at h
    by_cases hf2 : s.nextTokenId ≤ parentId
    · rw [if_pos hf2] at h
      exact Except.noConfusion h
    rw [if_neg hf2] at h
    by_cases hf3 : (s.tokens parentId).tokenType ≠ TokenType.RawMaterial
    · rw [if_pos hf3] at h
      exact Except.noConfusion h
    rw [if_neg hf3] at h
    injection h with h
    exact ⟨h1, not_not.1 h2, h3, h4, Nat.lt_of_not_le h5,
      Or.inr (Or.inl ⟨h.symm, hf, hf1, Nat.lt_of_not_le hf2, not_not.1 hf3⟩)⟩
  rw [if_neg hf] at h
  by_cases hr : (s.users (s.addressToUserId sender)).role = "Retailer"
  · rw [if_pos hr] at h
    by_cases hr1 : parentId = 0
    · rw [if_pos hr1] at h
      exact Except.noConfusion h
    rw [if_neg hr1] at h
    by_cases hr2 : s.nextTokenId ≤ parentId
    · rw [if_pos hr2] at h
      exact Except.noConfusion h
    rw [if_neg hr2] at h
    by_cases hr3 : (s.tokens parentId).tokenType ≠ TokenType.ProcessedProduct
    · rw [if_pos hr3] at h
      exact Except.noConfusion h
    rw [if_neg hr3] at h
    injection h with h
    exact ⟨h1, not_not.1 h2, h3, h4, Nat.lt_of_not_le h5,
      Or.inr (Or.inr ⟨h.symm, hr, hr1, Nat.lt_of_not_le hr2, not_not.1 hr3⟩)⟩
  rw [if_neg hr] at h
  exact Except.noConfusion h

theorem inv_createTokenNew {s : SupplyChain} {sender : Addr} {name : String}
    {totalSupply : Nat} {features : String} {parentId time : Nat}
    {tt : TokenType} (hI : Inv s) (hsup : totalSupply ≠ 0)
    (hbound : totalSupply < 2 ^ 256) :
    Inv (createTokenNew s sender name totalSupply features parentId time tt) := by
  have hz : s.tokens s.nextTokenId = emptyToken :=
    hI.token_zero s.nextTokenId (by omega)
  have hzb : (s.tokens s.nextTokenId).balance = (fun _ => 0) := by
    rw [hz]
    rfl
  have hpos := hI.tokenId_pos
  refine ⟨hI.userId_pos, ?_, hI.transferId_pos, ?_, ?_, ?_, ?_, ?_, ?_,
    hI.user_bound, hI.user_zero⟩
  · dsimp only [createTokenNew]
    omega
  · intro t ht
    dsimp only [createTokenNew] at ht ⊢
    have hnt : t ≠ s.nextTokenId := by omega
    rw [Function.update_noteq hnt]
    exact hI.token_zero t (by omega)
  · intro t h1 h2
    dsimp only [createTokenNew] at h2 ⊢
    by_cases he : t = s.nextTokenId
    · subst he
      rw [Function.update_same]
      dsimp only
      rw [hzb]
      exact sumEq_update_zero sender totalSupply
    · rw [Function.update_noteq he]
      exact hI.conservation t h1 (by omega)
  · intro t h1 h2
    dsimp only [createTokenNew] at h2 ⊢
    by_cases he : t = s.nextTokenId
    · subst he
      rw [Function.update_same]
      exact hbound
    · rw [Function.update_noteq he]
      exact hI.supply_bound t h1 (by omega)
  · intro a
    dsimp only [createTokenNew]
    by_cases ha : a = sender
    · subst ha
      rw [Function.update_same]
      have hnm : s.nextTokenId ∉ s.userTokenIds a := by
        intro hm
        have hb := (hI.index_mem a s.nextTokenId).1 hm
        rw [hz] at hb
        simp [emptyToken] at hb
      rw [List.nodup_append]
      refine ⟨hI.index_nodup a, List.nodup_singleton _, ?_⟩
      intro z hz1 hz2
      have hze : z = s.nextTokenId := by simpa using hz2
      exact hnm (hze ▸ hz1)
    · rw [Function.update_noteq ha]
      exact hI.index_nodup a
  · intro a t
    dsimp only [createTokenNew]
    by_cases ha : a = sender
    · subst ha
      rw [Function.update_same]
      by_cases ht : t = s.nextTokenId
      · subst ht
        rw [Function.update_same]
        dsimp only
        rw [hzb, Function.update_same]
        simp only [List.mem_append, List.mem_singleton, or_true, true_iff]
        omega
      · rw [Function.update_noteq ht]
        simp only [List.mem_append, List.mem_singleton, ht, or_false]
        exact hI.index_mem a t
    · rw [Function.update_noteq ha]
      by_cases ht : t = s.nextTokenId
      · subst ht
        rw [Function.update_same]
        dsimp only
        rw [hzb, Function.update_noteq ha]
        simp only [Nat.lt_irrefl, iff_false]
        intro hm
        have hb := (hI.index_mem a _).1 hm
        rw [hz] at hb
        simp [emptyToken] at hb
      · rw [Function.update_noteq ht]
        exact hI.index_mem a t
  · intro i hi1 hi2
    dsimp only [createTokenNew] at hi2 ⊢
    obtain ⟨w1, w2, w3, w4⟩ := hI.transfer_wf i hi1 hi2
    exact ⟨w1, w2, by omega, w4⟩

theorem inv_createToken {s : SupplyChain} {sender : Addr} {name : String}
    {totalSupply : Nat} {features : String} {parentId time : Nat}
    {s' : SupplyChain} (hI : Inv s)
    (h : createToken s sender name totalSupply features parentId time = .ok s') :
    Inv s' := by
  obtain ⟨h1, h2, h3, h4, h5, hcase⟩ := createToken_ok h
  rcases hcase with ⟨hs', _, _⟩ | ⟨hs', _, _, _, _⟩ | ⟨hs', _, _, _, _⟩ <;>
    (subst hs'; exact inv_createTokenNew hI h4 h5)

/-- A successful `acceptTransfer` call is exactly `acceptNew` on a state
passing the three `require` checks and the two arithmetic checks. -/
theorem accept_ok {s : SupplyChain} {sender : Addr} {transferId : Nat}
    {s' : SupplyChain} (h : acceptTransfer s sender transferId = .ok s') :
    s' = acceptNew s transferId ∧
    (1 ≤ transferId ∧ transferId < s.nextTransferId) ∧
    sender = (s.transfers transferId).toA ∧
    (s.transfers transferId).status = TransferStatus.Pending ∧
    (s.transfers transferId).amount ≤
      (s.tokens (s.transfers transferId).tokenId).balance
        (s.transfers transferId).fromA ∧
    acceptB1 s transferId (s.transfers transferId).toA
      + (s.transfers transferId).amount < 2 ^ 256 := by
  unfold acceptTransfer at h
  by_cases h1 : ¬ (1 ≤ transferId ∧ transferId < s.nextTransferId)
  · rw [if_pos h1] at h
    exact Except.noConfusion h
  rw [if_neg h1] at h
  by_cases h2 : sender ≠ (s.transfers transferId).toA
  · rw [if_pos h2] at h
    exact Except.noConfusion h
  rw [if_neg h2] at h
  by_cases h3 : (s.transfers transferId).status ≠ TransferStatus.Pending
  · rw [if_pos h3] at h
    exact Except.noConfusion h
  rw [if_neg h3] at h
  by_cases h4 : (s.tokens (s.transfers transferId).tokenId).balance
      (s.transfers transferId).fromA < (s.transfers transferId).amount
  · rw [if_pos h4] at h
    exact Except.noConfusion h
  rw [if_neg h4] at h
  by_cases h5 : 2 ^ 256 ≤ acceptB1 s transferId (s.transfers transferId).toA
      + (s.transfers transferId).amount
  · rw [if_pos h5] at h
    exact Except.noConfusion h
  rw [if_neg h5] at h
  injection h with h
  exact ⟨h.symm, not_not.1 h1, not_not.1 h2, not_not.1 h3,
    Nat.le_of_not_lt h4, Nat.lt_of_not_le h5⟩

/-- Conversely, when all five checks pass, `acceptTransfer` succeeds and
returns exactly `acceptNew`. -/
theorem accept_ok_of {s : SupplyChain} {sender : Addr} {transferId : Nat}
    (h1 : 1 ≤ transferId) (h2 : transferId < s.nextTransferId)
    (h3 : sender = (s.transfers transferId).toA)
    (h4 : (s.transfers transferId).status = TransferStatus.Pending)
    (h5 : (s.transfers transferId).amount ≤
      (s.tokens (s.transfers transferId).tokenId).balance
        (s.transfers transferId).fromA)
    (h6 : acceptB1 s transferId (s.transfers transferId).toA
      + (s.transfers transferId).amount < 2 ^ 256) :
    acceptTransfer s sender transferId = .ok (acceptNew s transferId) := by
  unfold acceptTransfer
  rw [if_neg (not_not_intro ⟨h1, h2⟩), if_neg (not_not_intro h3),
    if_neg (not_not_intro h4), if_neg (Nat.not_lt.2 h5),
    if_neg (Nat.not_le.2 h6)]

theorem inv_acceptNew {s : SupplyChain} {transferId : Nat} (hI : Inv s)
    (hex1 : 1 ≤ transferId) (hex2 : transferId < s.nextTransferId)
    (hunder : (s.transfers transferId).amount ≤
      (s.tokens (s.transfers transferId).tokenId).balance
        (s.transfers transferId).fromA) :
    Inv (acceptNew s transferId) := by
  obtain ⟨hft, htid1, htid2, hamt⟩ := hI.transfer_wf transferId hex1 hex2
  have hyx : (s.transfers transferId).toA ≠ (s.transfers transferId).fromA :=
    Ne.symm hft
  have hb1y : acceptB1 s transferId (s.transfers transferId).toA
      = (s.tokens (s.transfers transferId).tokenId).balance
          (s.transfers transferId).toA := Function.update_noteq hyx _ _
  have hb2x : acceptB2 s transferId (s.transfers transferId).fromA
      = (s.tokens (s.transfers transferId).tokenId).balance
          (s.transfers transferId).fromA - (s.transfers transferId).amount := by
    unfold acceptB2
    rw [Function.update_noteq hft]
    exact Function.update_same _ _ _
  have hb2y : acceptB2 s transferId (s.transfers transferId).toA
      = (s.tokens (s.transfers transferId).tokenId).balance
          (s.transfers transferId).toA + (s.transfers transferId).amount := by
    unfold acceptB2
    rw [Function.update_same, hb1y]
  have hb2z : ∀ a, a ≠ (s.transfers transferId).fromA →
      a ≠ (s.transfers transferId).toA →
      acceptB2 s transferId a
        = (s.tokens (s.transfers transferId).tokenId).balance a := by
    intro a hax hay
    unfold acceptB2
    rw [Function.update_noteq hay]
    unfold acceptB1
    rw [Function.update_noteq hax]
  have hlist_x : (acceptNew s transferId).userTokenIds
      (s.transfers transferId).fromA =
      (if acceptB2 s transferId (s.transfers transferId).fromA = 0 then
        removeTokenId (s.userTokenIds (s.transfers transferId).fromA)
          (s.transfers transferId).tokenId
      else s.userTokenIds (s.transfers transferId).fromA) := by
    dsimp only [acceptNew]
    rw [Function.update_same, Function.update_noteq hft]
  have hlist_y : (acceptNew s transferId).userTokenIds
      (s.transfers transferId).toA =
      (if (s.tokens (s.transfers transferId).tokenId).balance
            (s.transfers transferId).toA = 0 then
        s.userTokenIds (s.transfers transferId).toA
          ++ [(s.transfers transferId).tokenId]
      else s.userTokenIds (s.transfers transferId).toA) := by
    dsimp only [acceptNew]
    rw [Function.update_noteq hyx, Function.update_same]
  have hlist_z : ∀ a, a ≠ (s.transfers transferId).fromA →
      a ≠ (s.transfers transferId).toA →
      (acceptNew s transferId).userTokenIds a = s.userTokenIds a := by
    intro a hax hay
    dsimp only [acceptNew]
    rw [Function.update_noteq hax, Function.update_noteq hay]
  have htok_tid : (acceptNew s transferId).tokens
      (s.transfers transferId).tokenId =
      { s.tokens (s.transfers transferId).tokenId with
        balance := acceptB2 s transferId } := by
    dsimp only [acceptNew]
    rw [Function.update_same]
  have htok_other : ∀ t, t ≠ (s.transfers transferId).tokenId →
      (acceptNew s transferId).tokens t = s.tokens t := by
    intro t ht
    dsimp only [acceptNew]
    rw [Function.update_noteq ht]
  refine ⟨hI.userId_pos, hI.tokenId_pos, hI.transferId_pos, ?_, ?_, ?_, ?_,
    ?_, ?_, hI.user_bound, hI.user_zero⟩
  · intro t ht
    have hnt : t ≠ (s.transfers transferId).tokenId := by
      intro he
      subst he
      exact ht ⟨htid1, htid2⟩
    rw [htok_other t hnt]
    exact hI.token_zero t ht
  · intro t h1 h2
    by_cases he : t = (s.transfers transferId).tokenId
    · subst he
      rw [htok_tid]
      dsimp only
      have hcons := hI.conservation _ h1 h2
      unfold acceptB2 acceptB1
      exact hcons.move hft hunder
    · rw [htok_other t he]
      exact hI.conservation t h1 h2
  · intro t h1 h2
    by_cases he : t = (s.transfers transferId).tokenId
    · subst he
      rw [htok_tid]
      exact hI.supply_bound _ h1 h2
    · rw [htok_other t he]
      exact hI.supply_bound t h1 h2
  · intro a
    by_cases hax : a = (s.transfers transferId).fromA
    · subst hax
      rw [hlist_x]
      by_cases hz2 : acceptB2 s transferId (s.transfers transferId).fromA = 0
      · rw [if_pos hz2]
        exact removeTokenId_nodup (hI.index_nodup _)
      · rw [if_neg hz2]
        exact hI.index_nodup _
    by_cases hay : a = (s.transfers transferId).toA
    · subst hay
      rw [hlist_y]
      by_cases hz0 : (s.tokens (s.transfers transferId).tokenId).balance
          (s.transfers transferId).toA = 0
      · rw [if_pos hz0]
        have hnm : (s.transfers transferId).tokenId ∉
            s.userTokenIds (s.transfers transferId).toA := by
          intro hm
          have hb := (hI.index_mem _ _).1 hm
          omega
        rw [List.nodup_append]
        refine ⟨hI.index_nodup _, List.nodup_singleton _, ?_⟩
        intro z hz1 hz2
        exact hnm ((by simpa using hz2 : z = _) ▸ hz1)
      · rw [if_neg hz0]
        exact hI.index_nodup _
    rw [hlist_z a hax hay]
    exact hI.index_nodup a
  · intro a t
    by_cases hax : a = (s.transfers transferId).fromA
    · subst hax
      rw [hlist_x]
      by_cases ht : t = (s.transfers transferId).tokenId
      · subst ht
        rw [htok_tid]
        dsimp only
        by_cases hz2 : acceptB2 s transferId (s.transfers transferId).fromA = 0
        · rw [if_pos hz2, hz2]
          simp only [Nat.lt_irrefl, iff_false]
          intro hm
          exact ((mem_removeTokenId (hI.index_nodup _)).1 hm).2 rfl
        · rw [if_neg hz2]
          constructor
          · intro _
            omega
          · intro _
            exact (hI.index_mem _ _).2 (by omega)
      · rw [htok_other t ht]
        by_cases hz2 : acceptB2 s transferId (s.transfers transferId).fromA = 0
        · rw [if_pos hz2, mem_removeTokenId (hI.index_nodup _)]
          simp only [ht, ne_eq, not_false_iff, and_true]
          exact hI.index_mem _ t
        · rw [if_neg hz2]
          exact hI.index_mem _ t
    by_cases hay : a = (s.transfers transferId).toA
    · subst hay
      rw [hlist_y]
      by_cases ht : t = (s.transfers transferId).tokenId
      · subst ht
        rw [htok_tid]
        dsimp only
        rw [hb2y]
        by_cases hz0 : (s.tokens (s.transfers transferId).tokenId).balance
            (s.transfers transferId).toA = 0
        · rw [if_pos hz0]
          simp only [List.mem_append, List.mem_singleton]
          constructor
          · intro _
            omega
          · intro _
            exact Or.inr trivial
        · rw [if_neg hz0]
          constructor
          · intro _
            omega
          · intro _
            exact (hI.index_mem _ _).2 (Nat.pos_of_ne_zero hz0)
      · rw [htok_other t ht]
        by_cases hz0 : (s.tokens (s.transfers transferId).tokenId).balance
            (s.transfers transferId).toA = 0
        · rw [if_pos hz0]
          simp only [List.mem_append, List.mem_singleton, ht, or_false]
          exact hI.index_mem _ t
        · rw [if_neg hz0]
          exact hI.index_mem _ t
    rw [hlist_z a hax hay]
    by_cases ht : t = (s.transfers transferId).tokenId
    · subst ht
      rw [htok_tid]
      dsimp only
      rw [hb2z a hax hay]
      exact hI.index_mem a _
    · rw [htok_other t ht]
      exact hI.index_mem a t
  · intro i hi1 hi2
    dsimp only [acceptNew] at hi2 ⊢
    by_cases he : i = transferId
    · subst he
      rw [Function.update_same]
      exact ⟨hft, htid1, htid2, hamt⟩
    · rw [Function.update_noteq he]
      exact hI.transfer_wf i hi1 hi2

theorem inv_acceptTransfer {s : SupplyChain} {sender : Addr}
    {transferId : Nat} {s' : SupplyChain} (hI : Inv s)
    (h : acceptTransfer s sender transferId = .ok s') : Inv s' := by
  obtain ⟨hs', hex, _, _, hunder, _⟩ := accept_ok h
  subst hs'
  exact inv_acceptNew hI hex.1 hex.2 hunder

/-- Every external call preserves the invariant. -/
theorem inv_step {s : SupplyChain} {op : Op} {s' : SupplyChain} (hI : Inv s)
    (h : step s op = .ok s') : Inv s' := by
  cases op with
  | requestUserRole sender role => exact inv_requestUserRole hI h
  | changeStatusUser sender userAddress newStatus =>
      exact inv_changeStatusUser hI h
  | createToken sender name totalSupply features parentId time =>
      exact inv_createToken hI h
  | transfer sender toAddr tokenId amount time => exact inv_transfer hI h
  | acceptTransfer sender transferId => exact inv_acceptTransfer hI h
  | rejectTransfer sender transferId => exact inv_rejectTransfer hI h

/-- Every reachable state satisfies the invariant. -/
theorem reachable_inv {s : SupplyChain} (h : Reachable s) : Inv s := by
  induction h with
  | init admin => exact inv_init admin
  | next _ hstep ih => exact inv_step ih hstep

/-! ### Success/failure characterizations of the remaining operations -/

theorem requestUserRole_ok {s : SupplyChain} {sender : Addr} {role : String}
    {s' : SupplyChain} (h : requestUserRole s sender role = .ok s') :
    s' = requestNew s sender role ∧ validRole role ∧
    s.addressToUserId sender = 0 := by
  unfold requestUserRole at h
  split_ifs at h with h1 h2
  injection h with h
  exact ⟨h.symm, h1, not_not.1 h2⟩

theorem changeStatusUser_ok {s : SupplyChain} {sender userAddress : Addr}
    {newStatus : UserStatus} {s' : SupplyChain}
    (h : changeStatusUser s sender userAddress newStatus = .ok s') :
    s' = setStatusNew s userAddress newStatus ∧ sender = s.admin ∧
    s.addressToUserId userAddress ≠ 0 := by
  unfold changeStatusUser at h
  split_ifs at h with h1 h2
  injection h with h
  exact ⟨h.symm, not_not.1 h1, h2⟩

theorem changeStatusUser_ok_of {s : SupplyChain} {userAddress : Addr}
    {newStatus : UserStatus} (hreg : s.addressToUserId userAddress ≠ 0) :
    changeStatusUser s s.admin userAddress newStatus
      = .ok (setStatusNew s userAddress newStatus) := by
  unfold changeStatusUser
  rw [if_neg (not_not_intro rfl), if_neg hreg]

theorem reject_ok {s : SupplyChain} {sender : Addr} {transferId : Nat}
    {s' : SupplyChain} (h : rejectTransfer s sender transferId = .ok s') :
    s' = rejectNew s transferId ∧
    (1 ≤ transferId ∧ transferId < s.nextTransferId) ∧
    sender = (s.transfers transferId).toA ∧
    (s.transfers transferId).status = TransferStatus.Pending := by
  unfold rejectTransfer at h
  split_ifs at h with h1 h2 h3
  injection h with h
  exact ⟨h.symm, h1, not_not.1 h2, not_not.1 h3⟩

/-- When every check passes and the role pair is permitted, `transfer`
succeeds and returns exactly `transferNew`. -/
theorem transfer_ok_of {s : SupplyChain} {sender toAddr : Addr}
    {tokenId amount time : Nat}
    (h1 : s.addressToUserId sender ≠ 0)
    (h2 : (s.users (s.addressToUserId sender)).status = UserStatus.Approved)
    (h3 : 1 ≤ tokenId) (h3b : tokenId < s.nextTokenId)
    (h4 : amount ≠ 0) (h5 : amount ≤ 2 ^ 96 - 1)
    (h6 : amount ≤ (s.tokens tokenId).balance sender)
    (h7 : toAddr ≠ sender) (h8 : s.addressToUserId toAddr ≠ 0)
    (h9 : (s.users (s.addressToUserId toAddr)).status = UserStatus.Approved)
    (hrole : allowedPair (s.users (s.addressToUserId sender)).role
      (s.users (s.addressToUserId toAddr)).role) :
    transfer s sender toAddr tokenId amount time
      = .ok (transferNew s sender toAddr tokenId amount time) := by
  unfold transfer
  rw [if_neg h1, if_neg (not_not_intro h2), if_neg (not_not_intro ⟨h3, h3b⟩),
    if_neg h4, if_neg (Nat.not_lt.2 h5), if_neg (Nat.not_lt.2 h6), if_neg h7,
    if_neg h8, if_neg (not_not_intro h9)]
  rcases hrole with ⟨hp, hq⟩ | ⟨hp, hq⟩ | ⟨hp, hq⟩
  · rw [if_pos hp, if_neg (not_not_intro hq)]
  · rw [if_neg (by simp [hp]), if_pos hp, if_neg (not_not_intro hq)]
  · rw [if_neg (by simp [hp]), if_neg (by simp [hp]), if_pos hp,
      if_neg (not_not_intro hq)]

/-- When every check passes but the role pair is not permitted, `transfer`
fails with one of the role-flow revert reasons. -/
theorem transfer_roleflow_err {s : SupplyChain} {sender toAddr : Addr}
    {tokenId amount time : Nat}
    (h1 : s.addressToUserId sender ≠ 0)
    (h2 : (s.users (s.addressToUserId sender)).status = UserStatus.Approved)
    (h3 : 1 ≤ tokenId) (h3b : tokenId < s.nextTokenId)
    (h4 : amount ≠ 0) (h5 : amount ≤ 2 ^ 96 - 1)
    (h6 : amount ≤ (s.tokens tokenId).balance sender)
    (h7 : toAddr ≠ sender) (h8 : s.addressToUserId toAddr ≠ 0)
    (h9 : (s.users (s.addressToUserId toAddr)).status = UserStatus.Approved)
    (hvs : validRole (s.users (s.addressToUserId sender)).role)
    (hno : ¬ allowedPair (s.users (s.addressToUserId sender)).role
      (s.users (s.addressToUserId toAddr)).role) :
    ∃ e, transfer s sender toAddr tokenId amount time = .error e ∧
      roleFlowError e := by
  unfold transfer
  rw [if_neg h1, if_neg (not_not_intro h2), if_neg (not_not_intro ⟨h3, h3b⟩),
    if_neg h4, if_neg (Nat.not_lt.2 h5), if_neg (Nat.not_lt.2 h6), if_neg h7,
    if_neg h8, if_neg (not_not_intro h9)]
  rcases hvs with hp | hp | hp | hp
  · have hq : (s.users (s.addressToUserId toAddr)).role ≠ "Factory" :=
      fun he => hno (Or.inl ⟨hp, he⟩)
    rw [if_pos hp, if_pos hq]
    exact ⟨_, rfl, Or.inl rfl⟩
  · have hq : (s.users (s.addressToUserId toAddr)).role ≠ "Retailer" :=
      fun he => hno (Or.inr (Or.inl ⟨hp, he⟩))
    rw [if_neg (by simp [hp]), if_pos hp, if_pos hq]
    exact ⟨_, rfl, Or.inr (Or.inl rfl)⟩
  · have hq : (s.users (s.addressToUserId toAddr)).role ≠ "Consumer" :=
      fun he => hno (Or.inr (Or.inr ⟨hp, he⟩))
    rw [if_neg (by simp [hp]), if_neg (by simp [hp]), if_pos hp, if_pos hq]
    exact ⟨_, rfl, Or.inr (Or.inr (Or.inl rfl))⟩
  · rw [if_neg (by simp [hp]), if_neg (by simp [hp]), if_neg (by simp [hp]),
      if_pos hp]
    exact ⟨_, rfl, Or.inr (Or.inr (Or.inr rfl))⟩

theorem createToken_producer_ok {s : SupplyChain} {sender : Addr}
    {name : String} {totalSupply : Nat} {features : String}
    {parentId time : Nat}
    (h1 : s.addressToUserId sender ≠ 0)
    (h2 : (s.users (s.addressToUserId sender)).status = UserStatus.Approved)
    (h3 : name ≠ "") (h4 : totalSupply ≠ 0) (h5 : totalSupply < 2 ^ 256)
    (hrole : (s.users (s.addressToUserId sender)).role = "Producer")
    (hpar : parentId = 0) :
    createToken s sender name totalSupply features parentId time
      = .ok (createTokenNew s sender name totalSupply features parentId time
          TokenType.RawMaterial) := by
  subst hpar
  unfold createToken
  rw [if_neg h1, if_neg (not_not_intro h2), if_neg h3, if_neg h4,
    if_neg (Nat.not_le.2 h5), if_pos hrole, if_neg (not_not_intro rfl)]

theorem createToken_factory_ok {s : SupplyChain} {sender : Addr}
    {name : String} {totalSupply : Nat} {features : String}
    {parentId time : Nat}
    (h1 : s.addressToUserId sender ≠ 0)
    (h2 : (s.users (s.addressToUserId sender)).status = UserStatus.Approved)
    (h3 : name ≠ "") (h4 : totalSupply ≠ 0) (h5 : totalSupply < 2 ^ 256)
    (hrole : (s.users (s.addressToUserId sender)).role = "Factory")
    (hp1 : parentId ≠ 0) (hp2 : parentId < s.nextTokenId)
    (hp3 : (s.tokens parentId).tokenType = TokenType.RawMaterial) :
    createToken s sender name totalSupply features parentId time
      = .ok (createTokenNew s sender name totalSupply features parentId time
          TokenType.ProcessedProduct) := by
  unfold createToken
  rw [if_neg h1, if_neg (not_not_intro h2), if_neg h3, if_neg h4,
    if_neg (Nat.not_le.2 h5), if_neg (by simp [hrole]), if_pos hrole,
    if_neg hp1, if_neg (Nat.not_le.2 hp2), if_neg (not_not_intro hp3)]

theorem createToken_retailer_ok {s : SupplyChain} {sender : Addr}
    {name : String} {totalSupply : Nat} {features : String}
    {parentId time : Nat}
    (h1 : s.addressToUserId sender ≠ 0)
    (h2 : (s.users (s.addressToUserId sender)).status = UserStatus.Approved)
    (h3 : name ≠ "") (h4 : totalSupply ≠ 0) (h5 : totalSupply < 2 ^ 256)
    (hrole : (s.users (s.addressToUserId sender)).role = "Retailer")
    (hp1 : parentId ≠ 0) (hp2 : parentId < s.nextTokenId)
    (hp3 : (s.tokens parentId).tokenType = TokenType.ProcessedProduct) :
    createToken s sender name totalSupply features parentId time
      = .ok (createTokenNew s sender name totalSupply features parentId time
          TokenType.FinalProduct) := by
  unfold createToken
  rw [if_neg h1, if_neg (not_not_intro h2), if_neg h3, if_neg h4,
    if_neg (Nat.not_le.2 h5), if_neg (by simp [hrole]),
    if_neg (by simp [hrole]), if_pos hrole, if_neg hp1,
    if_neg (Nat.not_le.2 hp2), if_neg (not_not_intro hp3)]

theorem createToken_consumer_err {s : SupplyChain} {sender : Addr}
    {name : String} {totalSupply : Nat} {features : String}
    {parentId time : Nat}
    (h1 : s.addressToUserId sender ≠ 0)
    (h2 : (s.users (s.addressToUserId sender)).status = UserStatus.Approved)
    (h3 : name ≠ "") (h4 : totalSupply ≠ 0) (h5 : totalSupply < 2 ^ 256)
    (hrole : (s.users (s.addressToUserId sender)).role = "Consumer") :
    createToken s sender name totalSupply features parentId time
      = .error Err.cannotCreate := by
  unfold createToken
  rw [if_neg h1, if_neg (not_not_intro h2), if_neg h3, if_neg h4,
    if_neg (Nat.not_le.2 h5), if_neg (by simp [hrole]),
    if_neg (by simp [hrole]), if_neg (by simp [hrole])]

/-- `requestUserRole` leaves every principal's recorded status unchanged:
the caller was unregistered (status read off the zero slot, `Pending`) and
the fresh record is created in `Pending`. -/
theorem statusOf_requestNew {s : SupplyChain} {sender : Addr} {role : String}
    (hI : Inv s) (hreg : s.addressToUserId sender = 0) :
    ∀ a, statusOf (requestNew s sender role) a = statusOf s a := by
  intro a
  unfold statusOf requestNew
  dsimp only
  by_cases ha : a = sender
  · subst ha
    rw [Function.update_same, Function.update_same, hreg,
      hI.user_zero 0 (by omega)]
    rfl
  · rw [Function.update_noteq ha]
    have hlt := hI.user_bound a
    have hne : s.addressToUserId a ≠ s.nextUserId := by omega
    rw [Function.update_noteq hne]

/-! ### Reachability of concrete runs -/

theorem reachable_runOps :
    ∀ (ops : List Op) {s s' : SupplyChain},
      Reachable s → runOps s ops = .ok s' → Reachable s'
  | [], _, _, hr, h => by
      injection h with h
      exact h ▸ hr
  | op :: ops, s, s', hr, h => by
      unfold runOps at h
      cases hstep : step s op with
      | error e =>
          rw [hstep] at h
          exact Except.noConfusion h
      | ok s1 =>
          rw [hstep] at h
          exact reachable_runOps ops (Reachable.next hr hstep) h

theorem sReg_reach : Reachable sReg :=
  reachable_runOps opsReg (Reachable.init 0) rfl

theorem sPend_reach : Reachable sPend :=
  reachable_runOps opsPend (Reachable.init 0) rfl

theorem sAcc_reach : Reachable sAcc :=
  reachable_runOps opsAcc (Reachable.init 0) rfl

theorem sDouble_reach : Reachable sDouble :=
  reachable_runOps opsDouble (Reachable.init 0) rfl

/-! ### The claims -/

/-- C1: Balance conservation — in every reachable contract state, for every
TokenClass id that has been minted (`1 ≤ t < nextTokenId`), the per-holder
balance column of that token sums to its `totalSupply`. -/
theorem balance_conservation {s : SupplyChain} (h : Reachable s) :
    ∀ t, 1 ≤ t → t < s.nextTokenId →
      SumEq (s.tokens t).balance (s.tokens t).totalSupply :=
  fun t h1 h2 => (reachable_inv h).conservation t h1 h2

theorem balance_conservation_witness :
    SumEq (sAcc.tokens 1).balance (sAcc.tokens 1).totalSupply :=
  balance_conservation sAcc_reach 1 (by decide) (by decide)

/-- C3: No premature movement — whenever a `transfer` (initiate) call
succeeds, every balance of every TokenClass, in particular the sender's and
the recipient's balances for the transferred token, is unchanged; the call
only records the pending request. -/
theorem transfer_no_movement {s : SupplyChain} {sender toAddr : Addr}
    {tokenId amount time : Nat} {s' : SupplyChain}
    (h : transfer s sender toAddr tokenId amount time = .ok s') :
    ∀ t a, (s'.tokens t).balance a = (s.tokens t).balance a := by
  obtain ⟨hs', _⟩ := transfer_ok h
  subst hs'
  intro t a
  rfl

theorem transfer_no_movement_witness :
    (sPend.tokens 1).balance 1 = (sMint.tokens 1).balance 1 ∧
    (sPend.tokens 1).balance 2 = (sMint.tokens 1).balance 2 :=
  ⟨@transfer_no_movement sMint 1 2 1 60 6 sPend (by rfl) 1 1,
   @transfer_no_movement sMint 1 2 1 60 6 sPend (by rfl) 1 2⟩

/-- C9: OwnedAssetsIndex consistency — in every reachable state and for
every principal, `getUserTokens` is duplicate-free and contains exactly the
TokenClass ids for which the principal's balance is strictly positive. -/
theorem index_consistency {s : SupplyChain} (h : Reachable s) (a : Addr) :
    (getUserTokens s a).Nodup ∧
    ∀ t, t ∈ getUserTokens s a ↔ 0 < (s.tokens t).balance a :=
  ⟨(reachable_inv h).index_nodup a, fun t => (reachable_inv h).index_mem a t⟩

theorem index_consistency_witness :
    (getUserTokens sAcc 2).Nodup ∧
    (1 ∈ getUserTokens sAcc 2 ↔ 0 < (sAcc.tokens 1).balance 2) :=
  ⟨(index_consistency sAcc_reach 2).1, (index_consistency sAcc_reach 2).2 1⟩

/-- C10: Implicit amount ceiling — a `transfer` call with
`amount > 2 ^ 96 - 1` always fails (so no request is created and no state
changes), and whenever the earlier checks pass (registered approved sender,
existing token — the amount is nonzero automatically) the revert reason is
exactly the amount-too-large error, regardless of the sender's balance. -/
theorem amount_ceiling {s : SupplyChain} {sender toAddr : Addr}
    {tokenId amount time : Nat} (hbig : 2 ^ 96 - 1 < amount) :
    (∃ e, transfer s sender toAddr tokenId amount time = .error e) ∧
    (s.addressToUserId sender ≠ 0 →
     (s.users (s.addressToUserId sender)).status = UserStatus.Approved →
     1 ≤ tokenId → tokenId < s.nextTokenId →
     transfer s sender toAddr tokenId amount time
       = .error Err.amountTooLarge) := by
  have hpos : amount ≠ 0 :=
    Nat.pos_iff_ne_zero.1 (lt_of_le_of_lt (Nat.zero_le _) hbig)
  constructor
  · unfold transfer
    by_cases h1 : s.addressToUserId sender = 0
    · rw [if_pos h1]
      exact ⟨_, rfl⟩
    rw [if_neg h1]
    by_cases h2 : (s.users (s.addressToUserId sender)).status
        ≠ UserStatus.Approved
    · rw [if_pos h2]
      exact ⟨_, rfl⟩
    rw [if_neg h2]
    by_cases h3 : ¬ (1 ≤ tokenId ∧ tokenId < s.nextTokenId)
    · rw [if_pos h3]
      exact ⟨_, rfl⟩
    rw [if_neg h3, if_neg hpos, if_pos hbig]
    exact ⟨_, rfl⟩
  · intro h1 h2 h3 h4
    unfold transfer
    rw [if_neg h1, if_neg (not_not_intro h2), if_neg (not_not_intro ⟨h3, h4⟩),
      if_neg hpos, if_pos hbig]

theorem amount_ceiling_witness :
    transfer sMint 1 2 1 (2 ^ 96) 9 = .error Err.amountTooLarge :=
  (amount_ceiling (by decide)).2 (by decide) (by decide) (by decide)
    (by decide)

/-- C2 as stated is false: in `sDouble` the request `2` exists, the caller
is its recipient and it is still `Pending`, yet `acceptTransfer` fails
(checked-subtraction underflow), because the sender's balance was already
drained by accepting the first request. -/
theorem accept_effects_cex :
    (1 ≤ 2 ∧ 2 < sDouble.nextTransferId) ∧
    (sDouble.transfers 2).toA = 2 ∧
    (sDouble.transfers 2).status = TransferStatus.Pending ∧
    Reachable sDouble ∧
    acceptTransfer sDouble 2 2 = .error Err.underflow :=
  ⟨by decide, by decide, by decide, sDouble_reach, by rfl⟩

/-- C2 (amended): in every reachable state, an `acceptTransfer` call on an
existing `Pending` request by its recipient succeeds **provided `from`'s
balance still covers the request's amount**, and then atomically decrements
`from`'s balance by `amount`, increments `to`'s balance by `amount`, appends
`tokenId` to `to`'s owned-assets index exactly when `to`'s balance was zero,
removes `tokenId` from `from`'s index when `from`'s balance becomes zero,
and marks the request `Accepted`.  (A failing call returns an error and, by
the revert semantics of the embedding, produces no state at all.) -/
theorem accept_effects {s : SupplyChain} {caller : Addr} {transferId : Nat}
    (hr : Reachable s)
    (hex1 : 1 ≤ transferId) (hex2 : transferId < s.nextTransferId)
    (hcaller : caller = (s.transfers transferId).toA)
    (hpend : (s.transfers transferId).status = TransferStatus.Pending)
    (hcover : (s.transfers transferId).amount ≤
      (s.tokens (s.transfers transferId).tokenId).balance
        (s.transfers transferId).fromA) :
    ∃ s', acceptTransfer s caller transferId = .ok s' ∧
      (s'.tokens (s.transfers transferId).tokenId).balance
          (s.transfers transferId).fromA
        = (s.tokens (s.transfers transferId).tokenId).balance
            (s.transfers transferId).fromA - (s.transfers transferId).amount ∧
      (s'.tokens (s.transfers transferId).tokenId).balance
          (s.transfers transferId).toA
        = (s.tokens (s.transfers transferId).tokenId).balance
            (s.transfers transferId).toA + (s.transfers transferId).amount ∧
      ((s.tokens (s.transfers transferId).tokenId).balance
          (s.transfers transferId).toA = 0 →
        s'.userTokenIds (s.transfers transferId).toA
          = s.userTokenIds (s.transfers transferId).toA
            ++ [(s.transfers transferId).tokenId]) ∧
      ((s.tokens (s.transfers transferId).tokenId).balance
          (s.transfers transferId).toA ≠ 0 →
        s'.userTokenIds (s.transfers transferId).toA
          = s.userTokenIds (s.transfers transferId).toA) ∧
      ((s'.tokens (s.transfers transferId).tokenId).balance
          (s.transfers transferId).fromA = 0 →
        (s.transfers transferId).tokenId ∉
          s'.userTokenIds (s.transfers transferId).fromA) ∧
      (s'.transfers transferId).status = TransferStatus.Accepted := by
  have hI := reachable_inv hr
  obtain ⟨hft, htid1, htid2, hamt⟩ := hI.transfer_wf transferId hex1 hex2
  have hyx : (s.transfers transferId).toA ≠ (s.transfers transferId).fromA :=
    Ne.symm hft
  have hb1y : acceptB1 s transferId (s.transfers transferId).toA
      = (s.tokens (s.transfers transferId).tokenId).balance
          (s.transfers transferId).toA := Function.update_noteq hyx _ _
  have hcons := hI.conservation _ htid1 htid2
  have htwo := hcons.two_le hft
  have hsup := hI.supply_bound _ htid1 htid2
  have hnoover : acceptB1 s transferId (s.transfers transferId).toA
      + (s.transfers transferId).amount < 2 ^ 256 := by
    rw [hb1y]
    omega
  have htok_tid : (acceptNew s transferId).tokens
      (s.transfers transferId).tokenId =
      { s.tokens (s.transfers transferId).tokenId with
        balance := acceptB2 s transferId } := by
    dsimp only [acceptNew]
    rw [Function.update_same]
  have hb2x : acceptB2 s transferId (s.transfers transferId).fromA
      = (s.tokens (s.transfers transferId).tokenId).balance
          (s.transfers transferId).fromA - (s.transfers transferId).amount := by
    unfold acceptB2
    rw [Function.update_noteq hft]
    exact Function.update_same _ _ _
  have hb2y : acceptB2 s transferId (s.transfers transferId).toA
      = (s.tokens (s.transfers transferId).tokenId).balance
          (s.transfers transferId).toA + (s.transfers transferId).amount := by
    unfold acceptB2
    rw [Function.update_same, hb1y]
  refine ⟨acceptNew s transferId,
    accept_ok_of hex1 hex2 hcaller hpend hcover hnoover, ?_, ?_, ?_, ?_, ?_,
    ?_⟩
  · rw [htok_tid]
    exact hb2x
  · rw [htok_tid]
    exact hb2y
  · intro hz0
    dsimp only [acceptNew]
    rw [Function.update_noteq hyx, Function.update_same, if_pos hz0]
  · intro hz0
    dsimp only [acceptNew]
    rw [Function.update_noteq hyx, Function.update_same, if_neg hz0]
  · intro hzx
    rw [htok_tid] at hzx
    have hz2 : acceptB2 s transferId (s.transfers transferId).fromA = 0 := hzx
    dsimp only [acceptNew]
    rw [Function.update_same, Function.update_noteq hft, if_pos hz2]
    intro hm
    exact ((mem_removeTokenId (hI.index_nodup _)).1 hm).2 rfl
  · dsimp only [acceptNew]
    rw [Function.update_same]

theorem accept_effects_witness :
    ∃ s', acceptTransfer sPend 2 1 = .ok s' :=
  Exists.imp (fun _ hh => hh.1)
    (accept_effects sPend_reach (by decide) (by decide) (by decide)
      (by decide) (by decide))

/-- C4 as stated is false: in the reachable state `sBig` all the
preconditions listed by the claim hold for the allowed pair
(Producer, Factory) — both parties registered and approved, token 1 exists,
the amount `2 ^ 96` is positive and within the sender's balance — yet
`transfer` fails with the amount-too-large revert instead of succeeding. -/
theorem role_flow_cex :
    sBig.addressToUserId 1 ≠ 0 ∧
    (sBig.users (sBig.addressToUserId 1)).status = UserStatus.Approved ∧
    (sBig.users (sBig.addressToUserId 1)).role = "Producer" ∧
    sBig.addressToUserId 2 ≠ 0 ∧
    (sBig.users (sBig.addressToUserId 2)).status = UserStatus.Approved ∧
    (sBig.users (sBig.addressToUserId 2)).role = "Factory" ∧
    (1 ≤ 1 ∧ 1 < sBig.nextTokenId) ∧ 0 < 2 ^ 96 ∧
    2 ^ 96 ≤ (sBig.tokens 1).balance 1 ∧ (2 : Addr) ≠ 1 ∧
    allowedPair "Producer" "Factory" ∧ Reachable sBig ∧
    transfer sBig 1 2 1 (2 ^ 96) 7 = .error Err.amountTooLarge :=
  ⟨by decide, by decide, by decide, by decide, by decide, by decide,
   by decide, by decide, by decide, by decide, by decide,
   reachable_runOps opsBig (Reachable.init 0) rfl, by rfl⟩

/-- C4 (amended): with all other preconditions of `transfer` satisfied —
including the implicit `amount ≤ 2 ^ 96 - 1` bound, which the claim's
precondition list omits — and both parties holding one of the four roles,
the call succeeds iff the ordered role pair is (Producer,Factory),
(Factory,Retailer) or (Retailer,Consumer); for every other pair it fails
with one of the role-flow revert reasons (the group the specification's
taxonomy calls `InvalidRoleFlow`, which includes Consumer-cannot-send). -/
theorem role_flow {s : SupplyChain} {sender toAddr : Addr}
    {tokenId amount time : Nat}
    (h1 : s.addressToUserId sender ≠ 0)
    (h2 : (s.users (s.addressToUserId sender)).status = UserStatus.Approved)
    (hvs : validRole (s.users (s.addressToUserId sender)).role)
    (h8 : s.addressToUserId toAddr ≠ 0)
    (h9 : (s.users (s.addressToUserId toAddr)).status = UserStatus.Approved)
    (_hvr : validRole (s.users (s.addressToUserId toAddr)).role)
    (h3 : 1 ≤ tokenId) (h3b : tokenId < s.nextTokenId)
    (h4 : amount ≠ 0) (h5 : amount ≤ 2 ^ 96 - 1)
    (h6 : amount ≤ (s.tokens tokenId).balance sender)
    (h7 : toAddr ≠ sender) :
    ((∃ s', transfer s sender toAddr tokenId amount time = .ok s') ↔
      allowedPair (s.users (s.addressToUserId sender)).role
        (s.users (s.addressToUserId toAddr)).role) ∧
    (¬ allowedPair (s.users (s.addressToUserId sender)).role
        (s.users (s.addressToUserId toAddr)).role →
      ∃ e, transfer s sender toAddr tokenId amount time = .error e ∧
        roleFlowError e) := by
  constructor
  · constructor
    · rintro ⟨s', hs'⟩
      obtain ⟨_, _, _, _, _, _, _, _, _, _, hrole⟩ := transfer_ok hs'
      rcases hrole with h | h
      · exact h
      · exact absurd hvs h
    · intro hallow
      exact ⟨_, transfer_ok_of h1 h2 h3 h3b h4 h5 h6 h7 h8 h9 hallow⟩
  · intro hno
    exact transfer_roleflow_err h1 h2 h3 h3b h4 h5 h6 h7 h8 h9 hvs hno

theorem role_flow_witness :
    ∃ s', transfer sMint 1 2 1 60 6 = .ok s' :=
  (role_flow (by decide) (by decide) (by decide) (by decide) (by decide)
    (by decide) (by decide) (by decide) (by decide) (by decide) (by decide)
    (by decide)).1.mpr (by decide)

/-- C5 as stated is false in one respect: on a terminal (here `Accepted`)
request, an `acceptTransfer` call by a non-recipient fails with the
only-recipient revert, not with the not-pending one the claim promises for
every call. -/
theorem transfer_terminal_cex :
    (sAcc.transfers 1).status = TransferStatus.Accepted ∧
    (1 : Addr) ≠ (sAcc.transfers 1).toA ∧ Reachable sAcc ∧
    acceptTransfer sAcc 1 1 = .error Err.onlyRecipientAccept ∧
    Err.onlyRecipientAccept ≠ Err.transferNotPending :=
  ⟨by decide, by decide, sAcc_reach, by rfl, by decide⟩

/-- C5 (amended): once a recorded request's status is `Accepted` or
`Rejected`, every further `acceptTransfer` or `rejectTransfer` call on its
id fails — leaving, by the revert semantics of the embedding, the state
unchanged — and the error is `NotPending` precisely when the caller is the
request's recipient (a non-recipient caller fails with the only-recipient
check first); a request therefore makes at most one transition out of
`Pending`. -/
theorem transfer_terminal {s : SupplyChain} {transferId : Nat} (caller : Addr)
    (hex1 : 1 ≤ transferId) (hex2 : transferId < s.nextTransferId)
    (hterm : (s.transfers transferId).status = TransferStatus.Accepted ∨
      (s.transfers transferId).status = TransferStatus.Rejected) :
    (∃ e, acceptTransfer s caller transferId = .error e) ∧
    (∃ e, rejectTransfer s caller transferId = .error e) ∧
    (caller = (s.transfers transferId).toA →
      acceptTransfer s caller transferId = .error Err.transferNotPending ∧
      rejectTransfer s caller transferId = .error Err.transferNotPending) := by
  have hnp : (s.transfers transferId).status ≠ TransferStatus.Pending := by
    rcases hterm with h | h <;> rw [h] <;> intro he <;>
      exact TransferStatus.noConfusion he
  refine ⟨?_, ?_, ?_⟩
  · unfold acceptTransfer
    rw [if_neg (not_not_intro ⟨hex1, hex2⟩)]
    by_cases hc : caller ≠ (s.transfers transferId).toA
    · rw [if_pos hc]
      exact ⟨_, rfl⟩
    · rw [if_neg hc, if_pos hnp]
      exact ⟨_, rfl⟩
  · unfold rejectTransfer
    rw [if_neg (not_not_intro ⟨hex1, hex2⟩)]
    by_cases hc : caller ≠ (s.transfers transferId).toA
    · rw [if_pos hc]
      exact ⟨_, rfl⟩
    · rw [if_neg hc, if_pos hnp]
      exact ⟨_, rfl⟩
  · intro hc
    constructor
    · unfold acceptTransfer
      rw [if_neg (not_not_intro ⟨hex1, hex2⟩), if_neg (not_not_intro hc),
        if_pos hnp]
    · unfold rejectTransfer
      rw [if_neg (not_not_intro ⟨hex1, hex2⟩), if_neg (not_not_intro hc),
        if_pos hnp]

theorem transfer_terminal_witness :
    acceptTransfer sAcc 2 1 = .error Err.transferNotPending ∧
    rejectTransfer sAcc 2 1 = .error Err.transferNotPending :=
  (transfer_terminal 2 (by decide) (by decide) (Or.inl (by decide))).2.2
    (by decide)

/-- C6: Lineage validation at mint — for an approved registered creator with
a non-empty name and a positive `totalSupply` (within the `uint256` calldata
domain): a Producer's call succeeds iff `parentId = 0` and mints a
`RawMaterial`; a Factory's call succeeds iff `parentId` names an existing
TokenClass of kind `RawMaterial` and mints a `ProcessedProduct`; a
Retailer's call succeeds iff `parentId` names an existing
`ProcessedProduct` and mints a `FinalProduct`; a Consumer's call always
fails.  On failure the call returns an error, so by the revert semantics of
the embedding no TokenClass is created. -/
theorem mint_lineage {s : SupplyChain} {sender : Addr} {name : String}
    {totalSupply : Nat} {features : String} {parentId time : Nat}
    (h1 : s.addressToUserId sender ≠ 0)
    (h2 : (s.users (s.addressToUserId sender)).status = UserStatus.Approved)
    (h3 : name ≠ "") (h4 : 0 < totalSupply) (h5 : totalSupply < 2 ^ 256) :
    ((s.users (s.addressToUserId sender)).role = "Producer" →
      ((∃ s', createToken s sender name totalSupply features parentId time
          = .ok s') ↔ parentId = 0) ∧
      ∀ s', createToken s sender name totalSupply features parentId time
          = .ok s' →
        (s'.tokens s.nextTokenId).tokenType = TokenType.RawMaterial ∧
        s'.nextTokenId = s.nextTokenId + 1) ∧
    ((s.users (s.addressToUserId sender)).role = "Factory" →
      ((∃ s', createToken s sender name totalSupply features parentId time
          = .ok s') ↔
        (parentId ≠ 0 ∧ parentId < s.nextTokenId ∧
         (s.tokens parentId).tokenType = TokenType.RawMaterial)) ∧
      ∀ s', createToken s sender name totalSupply features parentId time
          = .ok s' →
        (s'.tokens s.nextTokenId).tokenType = TokenType.ProcessedProduct ∧
        s'.nextTokenId = s.nextTokenId + 1) ∧
    ((s.users (s.addressToUserId sender)).role = "Retailer" →
      ((∃ s', createToken s sender name totalSupply features parentId time
          = .ok s') ↔
        (parentId ≠ 0 ∧ parentId < s.nextTokenId ∧
         (s.tokens parentId).tokenType = TokenType.ProcessedProduct)) ∧
      ∀ s', createToken s sender name totalSupply features parentId time
          = .ok s' →
        (s'.tokens s.nextTokenId).tokenType = TokenType.FinalProduct ∧
        s'.nextTokenId = s.nextTokenId + 1) ∧
    ((s.users (s.addressToUserId sender)).role = "Consumer" →
      createToken s sender name totalSupply features parentId time
        = .error Err.cannotCreate) := by
  have h4' : totalSupply ≠ 0 := Nat.pos_iff_ne_zero.1 h4
  refine ⟨?_, ?_, ?_, ?_⟩
  · intro hrole
    constructor
    · constructor
      · rintro ⟨s', hs'⟩
        obtain ⟨_, _, _, _, _, hcase⟩ := createToken_ok hs'
        rcases hcase with ⟨_, _, hp⟩ | ⟨_, hfr, _⟩ | ⟨_, hfr, _⟩
        · exact hp
        · rw [hrole] at hfr
          exact absurd hfr (by decide)
        · rw [hrole] at hfr
          exact absurd hfr (by decide)
      · intro hp
        exact ⟨_, createToken_producer_ok h1 h2 h3 h4' h5 hrole hp⟩
    · intro s' hs'
      obtain ⟨_, _, _, _, _, hcase⟩ := createToken_ok hs'
      rcases hcase with ⟨hs'e, _, _⟩ | ⟨_, hfr, _⟩ | ⟨_, hfr, _⟩
      · subst hs'e
        constructor
        · dsimp only [createTokenNew]
          rw [Function.update_same]
        · rfl
      · rw [hrole] at hfr
        exact absurd hfr (by decide)
      · rw [hrole] at hfr
        exact absurd hfr (by decide)
  · intro hrole
    constructor
    · constructor
      · rintro ⟨s', hs'⟩
        obtain ⟨_, _, _, _, _, hcase⟩ := createToken_ok hs'
        rcases hcase with ⟨_, hfr, _⟩ | ⟨_, _, hp1, hp2, hp3⟩ | ⟨_, hfr, _⟩
        · rw [hrole] at hfr
          exact absurd hfr (by decide)
        · exact ⟨hp1, hp2, hp3⟩
        · rw [hrole] at hfr
          exact absurd hfr (by decide)
      · rintro ⟨hp1, hp2, hp3⟩
        exact ⟨_, createToken_factory_ok h1 h2 h3 h4' h5 hrole hp1 hp2 hp3⟩
    · intro s' hs'
      obtain ⟨_, _, _, _, _, hcase⟩ := createToken_ok hs'
      rcases hcase with ⟨_, hfr, _⟩ | ⟨hs'e, _, _, _, _⟩ | ⟨_, hfr, _⟩
      · rw [hrole] at hfr
        exact absurd hfr (by decide)
      · subst hs'e
        constructor
        · dsimp only [createTokenNew]
          rw [Function.update_same]
        · rfl
      · rw [hrole] at hfr
        exact absurd hfr (by decide)
  · intro hrole
    constructor
    · constructor
      · rintro ⟨s', hs'⟩
        obtain ⟨_, _, _, _, _, hcase⟩ := createToken_ok hs'
        rcases hcase with ⟨_, hfr, _⟩ | ⟨_, hfr, _⟩ | ⟨_, _, hp1, hp2, hp3⟩
        · rw [hrole] at hfr
          exact absurd hfr (by decide)
        · rw [hrole] at hfr
          exact absurd hfr (by decide)
        · exact ⟨hp1, hp2, hp3⟩
      · rintro ⟨hp1, hp2, hp3⟩
        exact ⟨_, createToken_retailer_ok h1 h2 h3 h4' h5 hrole hp1 hp2 hp3⟩
    · intro s' hs'
      obtain ⟨_, _, _, _, _, hcase⟩ := createToken_ok hs'
      rcases hcase with ⟨_, hfr, _⟩ | ⟨_, hfr, _⟩ | ⟨hs'e, _, _, _, _⟩
      · rw [hrole] at hfr
        exact absurd hfr (by decide)
      · rw [hrole] at hfr
        exact absurd hfr (by decide)
      · subst hs'e
        constructor
        · dsimp only [createTokenNew]
          rw [Function.update_same]
        · rfl
  · intro hrole
    exact createToken_consumer_err h1 h2 h3 h4' h5 hrole

theorem mint_lineage_witness :
    ∃ s', createToken sReg 1 "Grain" 100 "" 0 5 = .ok s' :=
  ((mint_lineage (by decide) (by decide) (by decide) (by decide)
    (by decide)).1 (by decide)).1.mpr rfl

/-- C7 as stated is false: in the reachable state `sReg` the principal `1`
is an `Approved` Member, yet a single Admin `changeStatusUser` call with the
new status `Pending` succeeds and returns the Member's status to `Pending`
— the code places no restriction on the status an Admin may set. -/
theorem status_pending_cex :
    Reachable sReg ∧ statusOf sReg 1 = UserStatus.Approved ∧
    runOps sReg [Op.changeStatusUser 0 1 UserStatus.Pending]
      = .ok (setStatusNew sReg 1 UserStatus.Pending) ∧
    statusOf (setStatusNew sReg 1 UserStatus.Pending) 1
      = UserStatus.Pending :=
  ⟨sReg_reach, by decide, by rfl, by decide⟩

/-- C7 (amended): a Member's recorded status changes only through
`changeStatusUser`: every other operation preserves every principal's
status, while a successful `changeStatusUser` call is always made by the
admin on a registered principal and overwrites the target's status with
exactly the requested value — which may be `Pending`, so the Admin action
can return a Member to `Pending` (the counterexample exhibits such a run);
no other path back to `Pending` exists. -/
theorem status_changes_only_by_admin :
    (∀ (s : SupplyChain) (op : Op) (s' : SupplyChain), Reachable s →
      step s op = .ok s' →
      (∀ c u st, op ≠ Op.changeStatusUser c u st) →
      ∀ a, statusOf s' a = statusOf s a) ∧
    (∀ (s : SupplyChain) (c u : Addr) (st : UserStatus) (s' : SupplyChain),
      step s (Op.changeStatusUser c u st) = .ok s' →
      c = s.admin ∧ s.addressToUserId u ≠ 0 ∧ statusOf s' u = st) := by
  constructor
  · intro s op s' hr hstep hne a
    cases op with
    | requestUserRole sender role =>
        obtain ⟨hs', _, hreg⟩ := requestUserRole_ok hstep
        subst hs'
        exact statusOf_requestNew (reachable_inv hr) hreg a
    | changeStatusUser c u st => exact absurd rfl (hne c u st)
    | createToken sender nm ts ft pid tm =>
        obtain ⟨_, _, _, _, _, hcase⟩ := createToken_ok hstep
        rcases hcase with ⟨hs', _, _⟩ | ⟨hs', _, _, _, _⟩ | ⟨hs', _, _, _, _⟩ <;>
          (subst hs'; rfl)
    | transfer sender toAddr tokenId amount tm =>
        obtain ⟨hs', _⟩ := transfer_ok hstep
        subst hs'
        rfl
    | acceptTransfer sender transferId =>
        obtain ⟨hs', _⟩ := accept_ok hstep
        subst hs'
        rfl
    | rejectTransfer sender transferId =>
        obtain ⟨hs', _⟩ := reject_ok hstep
        subst hs'
        rfl
  · intro s c u st s' hstep
    obtain ⟨hs', hadm, hreg⟩ := changeStatusUser_ok hstep
    subst hs'
    refine ⟨hadm, hreg, ?_⟩
    unfold statusOf setStatusNew
    dsimp only
    rw [Function.update_same]

theorem status_changes_witness :
    statusOf (setStatusNew sReg 1 UserStatus.Canceled) 1
      = UserStatus.Canceled :=
  (status_changes_only_by_admin.2 sReg 0 1 UserStatus.Canceled
    (setStatusNew sReg 1 UserStatus.Canceled) (by rfl)).2.2

/-- C8 as stated is false in one respect: a registered principal's repeat
`requestUserRole` call with an unrecognized role string fails with the
invalid-role revert — the role check comes first in the source — not with
`AlreadyRegistered` as the claim promises for every call. -/
theorem registration_cex :
    sReg.addressToUserId 1 ≠ 0 ∧
    requestUserRole sReg 1 "Admin" = .error Err.invalidRole ∧
    Err.invalidRole ≠ Err.alreadyRegistered :=
  ⟨by decide, by rfl, by decide⟩

/-- C8 (amended): for a principal already holding a Member record (whatever
its status), every further `requestUserRole` call fails — with
`AlreadyRegistered` whenever the requested role is one of the four
recognized names, and with `InvalidRole` otherwise — and in either case the
call returns an error, so by the revert semantics of the embedding no new
Member record is created. -/
theorem registration_exclusive {s : SupplyChain} {p : Addr}
    (hreg : s.addressToUserId p ≠ 0) :
    (∀ role, ∃ e, requestUserRole s p role = .error e) ∧
    ∀ role, validRole role →
      requestUserRole s p role = .error Err.alreadyRegistered := by
  constructor
  · intro role
    unfold requestUserRole
    by_cases hv : validRole role
    · rw [if_neg (not_not_intro hv), if_pos hreg]
      exact ⟨_, rfl⟩
    · rw [if_pos hv]
      exact ⟨_, rfl⟩
  · intro role hv
    unfold requestUserRole
    rw [if_neg (not_not_intro hv), if_pos hreg]

theorem registration_exclusive_witness :
    requestUserRole sReg 1 "Producer" = .error Err.alreadyRegistered :=
  (registration_exclusive (by decide)).2 "Producer" (by decide)

end SCTrack
